import Mathlib

/-!
Shallow embedding of the match event ledger and derived-state engine of the
rugby-scorer application (source: src/src/App.tsx store actions,
src/src/db/matches.ts persistence, and the earlier store version kept at
src/unnamed/part_000).  Machine numbers are modelled as Int (JS numbers on
the score fields can go negative under subtraction) or Nat (clock values
that are only ever incremented).  Nondeterministic environment inputs of
the source (crypto.randomUUID, Date.now) are passed as explicit parameters.
-/

namespace Rugby

/-- Team side, the 'home' | 'away' union of the source. -/
inductive Team where
  | home
  | away
deriving DecidableEq, Repr

/-- Score kind: 'try' | 'conversion' | 'penalty' | 'drop-goal' | 'penalty-try'.
The first constructor models the kind named 'try' in the source (the word is
reserved in Lean). -/
inductive ScoreType where
  | tryScore
  | conversion
  | penalty
  | dropGoal
  | penaltyTry
deriving DecidableEq, Repr

/-- Card severity: 'yellow' | 'red'. -/
inductive CardType where
  | yellow
  | red
deriving DecidableEq, Repr

/-- System event kind: 'match-start' | 'half-time' | 'match-end'. -/
inductive SysType where
  | matchStart
  | halfTime
  | matchEnd
deriving DecidableEq, Repr

/-- The ScoreEvent interface of src/src/App.tsx. -/
structure ScoreEvent where
  id : String
  timestamp : Nat
  team : Team
  type : ScoreType
  points : Int
  player : Option String
  half : Nat
  minute : Nat
  matchTime : Nat
  pending : Bool
deriving DecidableEq, Repr

/-- The Card interface of src/src/App.tsx (returned defaults to false,
matching the falsy reading of an absent flag). -/
structure Card where
  id : String
  timestamp : Nat
  team : Team
  player : String
  type : CardType
  half : Nat
  minute : Nat
  matchTime : Nat
  returnTime : Option Nat
  returned : Bool
deriving DecidableEq, Repr

/-- The Substitution interface of src/src/App.tsx. -/
structure Substitution where
  id : String
  timestamp : Nat
  team : Team
  offPlayerId : String
  onPlayerId : String
  half : Nat
  minute : Nat
  matchTime : Nat
deriving DecidableEq, Repr

/-- The SystemEvent interface of src/src/App.tsx. -/
structure SystemEvent where
  id : String
  timestamp : Nat
  type : SysType
  half : Nat
  matchTime : Nat
deriving DecidableEq, Repr

/-- The CardReturnEvent interface of src/src/App.tsx. -/
structure CardReturnEvent where
  id : String
  timestamp : Nat
  cardId : String
  team : Team
  playerId : String
  matchTime : Nat
deriving DecidableEq, Repr

/-- The app-level Player interface of src/src/App.tsx. -/
structure Player where
  id : String
  number : Nat
  name : String
  position : String
  isStarter : Bool
  team : Team
deriving DecidableEq, Repr

/-- The MatchState of the zustand store in src/src/App.tsx (MatchConfig
fields included). -/
structure MatchState where
  homeTeam : String
  awayTeam : String
  homeColor : String
  awayColor : String
  halfDuration : Nat
  playerTracking : Bool
  cardTracking : Bool
  substitutions : Bool
  competition : String
  venue : String
  referee : String
  homeScore : Int
  awayScore : Int
  scoreEvents : List ScoreEvent
  cards : List Card
  players : List Player
  substitutionEvents : List Substitution
  systemEvents : List SystemEvent
  cardReturnEvents : List CardReturnEvent
  currentHalf : Nat
  elapsedSeconds : Nat
  injuryTime : Nat
  isRunning : Bool
  lastTryTeam : Option Team
  matchStarted : Bool
  currentMatchId : Option String
deriving DecidableEq, Repr

/-- The initial store state (defaults at the top of the create call in
src/src/App.tsx). -/
def initState : MatchState where
  homeTeam := "Home"
  awayTeam := "Away"
  homeColor := "#3b82f6"
  awayColor := "#ef4444"
  halfDuration := 40 * 60
  playerTracking := true
  cardTracking := true
  substitutions := false
  competition := ""
  venue := ""
  referee := ""
  homeScore := 0
  awayScore := 0
  scoreEvents := []
  cards := []
  players := []
  substitutionEvents := []
  systemEvents := []
  cardReturnEvents := []
  currentHalf := 1
  elapsedSeconds := 0
  injuryTime := 0
  isRunning := false
  lastTryTeam := none
  matchStarted := false
  currentMatchId := none

/-- The fixed kind-to-points table of addScore. -/
def pointsFor : ScoreType → Int
  | .tryScore => 5
  | .conversion => 2
  | .penalty => 3
  | .dropGoal => 3
  | .penaltyTry => 7

/-- The conversion guard of addScore: the last element of
scoreEvents.filter(e => e.type === 'try' && !e.pending).  Note the source
tests only the kind 'try', not 'penalty-try'. -/
def lastNonPendingTry (events : List ScoreEvent) : Option ScoreEvent :=
  (events.filter fun e => e.type == ScoreType.tryScore && !e.pending).getLast?

/-- addScore of src/src/App.tsx.  The id and timestamp parameters stand for
crypto.randomUUID() and Date.now(). -/
def addScore (s : MatchState) (team : Team) (ty : ScoreType)
    (player : Option String) (pending : Bool) (id : String) (ts : Nat) :
    MatchState :=
  let rejected : Bool :=
    ty == ScoreType.conversion &&
      match lastNonPendingTry s.scoreEvents with
      | none => true
      | some lastTry => lastTry.team != team
  if rejected then s
  else
    let points := pointsFor ty
    let event : ScoreEvent :=
      { id := id
        timestamp := ts
        team := team
        type := ty
        points := points
        player := player
        half := s.currentHalf
        minute := s.elapsedSeconds / 60
        matchTime := s.elapsedSeconds
        pending := pending }
    let s :=
      match team with
      | .home => { s with homeScore := if pending then s.homeScore else s.homeScore + points }
      | .away => { s with awayScore := if pending then s.awayScore else s.awayScore + points }
    { s with
      scoreEvents := s.scoreEvents ++ [event]
      lastTryTeam :=
        if (ty = ScoreType.tryScore ∨ ty = ScoreType.penaltyTry) ∧ pending = false
        then some team else none }

/-- addCard of src/src/App.tsx. -/
def addCard (s : MatchState) (team : Team) (player : String) (ty : CardType)
    (id : String) (ts : Nat) : MatchState :=
  let card : Card :=
    { id := id
      timestamp := ts
      team := team
      player := player
      type := ty
      half := s.currentHalf
      minute := s.elapsedSeconds / 60
      matchTime := s.elapsedSeconds
      returnTime := if ty = CardType.yellow then some (s.elapsedSeconds + 600) else none
      returned := false }
  { s with cards := s.cards ++ [card] }

/-- addSubstitution of src/src/App.tsx: appends the substitution event and
registers the incoming player when not already in the player list. -/
def addSubstitution (s : MatchState) (team : Team) (offPlayerId onPlayerId : String)
    (onPlayer : Option Player) (id : String) (ts : Nat) : MatchState :=
  let sub : Substitution :=
    { id := id
      timestamp := ts
      team := team
      offPlayerId := offPlayerId
      onPlayerId := onPlayerId
      half := s.currentHalf
      minute := s.elapsedSeconds / 60
      matchTime := s.elapsedSeconds }
  let hasOnPlayer := s.players.any fun p => p.id == onPlayerId
  match onPlayer with
  | some p =>
    if hasOnPlayer then { s with substitutionEvents := s.substitutionEvents ++ [sub] }
    else { s with substitutionEvents := s.substitutionEvents ++ [sub], players := s.players ++ [p] }
  | none => { s with substitutionEvents := s.substitutionEvents ++ [sub] }

/-- returnFromSinBin of src/src/App.tsx. -/
def returnFromSinBin (s : MatchState) (cardId : String) (id : String) (ts : Nat) :
    MatchState :=
  match s.cards.find? (fun c => c.id == cardId) with
  | none => s
  | some card =>
    let returnEv : CardReturnEvent :=
      { id := id
        timestamp := ts
        cardId := cardId
        team := card.team
        playerId := card.player
        matchTime := s.elapsedSeconds }
    { s with
      cards := s.cards.map fun c => if c.id == cardId then { c with returned := true } else c
      cardReturnEvents := s.cardReturnEvents ++ [returnEv] }

/-- resolvePendingEvent of src/src/App.tsx.  Note that the source does not
check that the located event is still pending before applying its points. -/
def resolvePendingEvent (s : MatchState) (eventId : String) (approved : Bool) :
    MatchState :=
  match s.scoreEvents.find? (fun e => e.id == eventId) with
  | none => s
  | some event =>
    if approved then
      let s' :=
        match event.team with
        | .home => { s with homeScore := s.homeScore + event.points }
        | .away => { s with awayScore := s.awayScore + event.points }
      { s' with
        scoreEvents := s.scoreEvents.map fun e =>
          if e.id == eventId then { e with pending := false } else e
        lastTryTeam :=
          if event.type = ScoreType.tryScore ∨ event.type = ScoreType.penaltyTry
          then some event.team else none }
    else
      { s with scoreEvents := s.scoreEvents.filter fun e => e.id ≠ eventId }

/-- updateScoreEventPlayer of src/src/App.tsx. -/
def updateScoreEventPlayer (s : MatchState) (eventId : String)
    (playerId : Option String) : MatchState :=
  { s with
    scoreEvents := s.scoreEvents.map fun e =>
      if e.id == eventId then { e with player := playerId } else e }

/-- One step of the full-recompute loop in removeScoreEvent: running
(homeScore, awayScore, lastTryTeam). -/
def recomputeStep (acc : Int × Int × Option Team) (e : ScoreEvent) :
    Int × Int × Option Team :=
  if e.pending then acc
  else
    let h := if e.team = Team.home then acc.1 + e.points else acc.1
    let a := if e.team = Team.away then acc.2.1 + e.points else acc.2.1
    let lt :=
      if e.type = ScoreType.tryScore ∨ e.type = ScoreType.penaltyTry then some e.team
      else if e.type = ScoreType.conversion then some e.team
      else acc.2.2
    (h, a, lt)

/-- The full recompute of removeScoreEvent (iterates the remaining ledger in
order; on a conversion the source sets lastTryTeam to the converting team). -/
def recompute (events : List ScoreEvent) : Int × Int × Option Team :=
  events.foldl recomputeStep (0, 0, none)

/-- removeScoreEvent of src/src/App.tsx. -/
def removeScoreEvent (s : MatchState) (eventId : String) : MatchState :=
  let scoreEvents := s.scoreEvents.filter fun e => e.id ≠ eventId
  let r := recompute scoreEvents
  { s with
    scoreEvents := scoreEvents
    homeScore := r.1
    awayScore := r.2.1
    lastTryTeam := r.2.2 }

/-- removeCard of src/src/App.tsx. -/
def removeCard (s : MatchState) (cardId : String) : MatchState :=
  { s with cards := s.cards.filter fun c => c.id ≠ cardId }

/-- removeSubstitution of src/src/App.tsx. -/
def removeSubstitution (s : MatchState) (subId : String) : MatchState :=
  { s with
    substitutionEvents := s.substitutionEvents.filter fun x => x.id ≠ subId }

/-- The `last?.timestamp || 0` reads in undo. -/
def lastTimeBy (f : α → Nat) (l : List α) : Nat :=
  match l.getLast? with
  | some x => f x
  | none => 0

/-- undo of src/src/App.tsx: compares the creation timestamps of the last
score event, card and substitution (each `last?.timestamp || 0`);
substitutions win ties. -/
def undo (s : MatchState) : MatchState :=
  if lastTimeBy Substitution.timestamp s.substitutionEvents ≥
        lastTimeBy ScoreEvent.timestamp s.scoreEvents ∧
      lastTimeBy Substitution.timestamp s.substitutionEvents ≥
        lastTimeBy Card.timestamp s.cards ∧
      s.substitutionEvents ≠ [] then
    { s with substitutionEvents := s.substitutionEvents.dropLast }
  else if lastTimeBy ScoreEvent.timestamp s.scoreEvents >
        lastTimeBy Card.timestamp s.cards ∧
      lastTimeBy ScoreEvent.timestamp s.scoreEvents >
        lastTimeBy Substitution.timestamp s.substitutionEvents ∧
      s.scoreEvents ≠ [] then
    match s.scoreEvents.getLast? with
    | none => s
    | some lastEvent =>
      let adjustment : Int := if lastEvent.pending then 0 else lastEvent.points
      let s' :=
        match lastEvent.team with
        | .home => { s with homeScore := s.homeScore - adjustment }
        | .away => { s with awayScore := s.awayScore - adjustment }
      { s' with
        scoreEvents := s.scoreEvents.dropLast
        lastTryTeam :=
          if lastEvent.type = ScoreType.conversion then some lastEvent.team
          else
            match s.scoreEvents.dropLast.getLast? with
            | some e2 => if e2.type = ScoreType.tryScore then some e2.team else none
            | none => none }
  else if s.cards ≠ [] then { s with cards := s.cards.dropLast }
  else s

/-- tick of src/src/App.tsx: gated on isRunning, increments the clock by one
second.  The current source contains no auto-pause. -/
def tick (s : MatchState) : MatchState :=
  if !s.isRunning then s
  else { s with elapsedSeconds := s.elapsedSeconds + 1 }

/-- tick of the earlier store version kept at src/unnamed/part_000: same
gate and increment, but auto-pauses on the tick that first reaches the
configured half duration. -/
def tickLegacy (s : MatchState) : MatchState :=
  if !s.isRunning then s
  else
    let newElapsed := s.elapsedSeconds + 1
    if newElapsed ≥ s.halfDuration ∧ s.elapsedSeconds < s.halfDuration then
      { s with elapsedSeconds := newElapsed, isRunning := false }
    else { s with elapsedSeconds := newElapsed }

/-- toggleTimer of src/src/App.tsx. -/
def toggleTimer (s : MatchState) : MatchState :=
  { s with isRunning := !s.isRunning }

/-- Stable insertion of an element into a list: placed before the first
element it compares le to, hence after every earlier tie. -/
def insertSorted (le : α → α → Bool) (a : α) : List α → List α
  | [] => [a]
  | b :: t => if le a b then a :: b :: t else b :: insertSorted le a t

/-- Stable sort, modelling the (stable) JS Array.prototype.sort with an
ascending comparator: elements in key order, ties in original order.  A
stable sort is extensionally unique for a total preorder, so insertion
sort is a faithful model. -/
def sortBy (le : α → α → Bool) : List α → List α
  | [] => []
  | x :: xs => insertSorted le x (sortBy le xs)

/-- Membership in the redCardedIds set of getSquadStatus. -/
def redCarded (cards : List Card) (team : Team) (pid : String) : Bool :=
  cards.any fun c => c.team == team && c.type == CardType.red && c.player == pid

/-- Membership in the inSinBinIds set of getSquadStatus: yellow, not yet
returned, with a returnTime that is still in the future. -/
def inSinBin (cards : List Card) (team : Team) (elapsedSeconds : Nat)
    (pid : String) : Bool :=
  cards.any fun c =>
    c.team == team && c.type == CardType.yellow && !c.returned &&
      c.player == pid &&
      match c.returnTime with
      | some rt => decide (elapsedSeconds < rt)
      | none => false

/-- The currentlyOnPitch set of getSquadStatus: starters, then each
substitution deletes the outgoing id and adds the incoming id.  The source
uses a JS Set; a list models it faithfully up to membership (delete removes
every copy, add appends one). -/
def onFieldIds (teamPlayers : List Player) (teamSubs : List Substitution) :
    List String :=
  teamSubs.foldl
    (fun acc sub => (acc.filter fun pid => pid ≠ sub.offPlayerId) ++ [sub.onPlayerId])
    ((teamPlayers.filter fun p => p.isStarter).map fun p => p.id)

/-- Result record of getSquadStatus. -/
structure SquadStatus where
  onPitch : List Player
  onBench : List Player
deriving DecidableEq, Repr

/-- getSquadStatus of src/src/App.tsx.  The JS stable sort by shirt number
is modelled by the (stable) mergeSort. -/
def getSquadStatus (team : Team) (players : List Player)
    (substitutionEvents : List Substitution) (cards : List Card)
    (elapsedSeconds : Nat) : SquadStatus :=
  let teamPlayers :=
    sortBy (fun a b => decide (a.number ≤ b.number))
      (players.filter fun p => p.team == team)
  let teamSubs := substitutionEvents.filter fun x => x.team == team
  let onField := onFieldIds teamPlayers teamSubs
  { onPitch := teamPlayers.filter fun p =>
      onField.contains p.id && !redCarded cards team p.id &&
        !inSinBin cards team elapsedSeconds p.id
    onBench := teamPlayers.filter fun p => !onField.contains p.id }

/-- The LogEvent type union tag of src/src/db/types.ts. -/
inductive LogType where
  | score
  | card
  | substitution
  | matchStart
  | halfTime
  | matchEnd
deriving DecidableEq, Repr

/-- The LogEvent interface of src/src/db/types.ts (one flat record with
optional fields; absent fields are none). -/
structure LogEvent where
  id : String
  timestamp : Nat
  type : LogType
  team : Option Team
  scoreType : Option ScoreType
  points : Option Int
  playerId : Option String
  pending : Option Bool
  cardType : Option CardType
  returned : Option Bool
  returnTime : Option Nat
  offPlayerId : Option String
  onPlayerId : Option String
  half : Option Nat
  matchTime : Option Nat
deriving DecidableEq, Repr

/-- A LogEvent with every optional field absent (helper for the builders). -/
def LogEvent.blank (id : String) (timestamp : Nat) (ty : LogType) : LogEvent where
  id := id
  timestamp := timestamp
  type := ty
  team := none
  scoreType := none
  points := none
  playerId := none
  pending := none
  cardType := none
  returned := none
  returnTime := none
  offPlayerId := none
  onPlayerId := none
  half := none
  matchTime := none

/-- The score entry pushed by buildLogFromSnapshot. -/
def scoreToLog (e : ScoreEvent) : LogEvent :=
  { LogEvent.blank e.id e.timestamp LogType.score with
    team := some e.team
    scoreType := some e.type
    points := some e.points
    playerId := e.player
    pending := some e.pending
    half := some e.half
    matchTime := some e.matchTime }

/-- The card entry pushed by buildLogFromSnapshot. -/
def cardToLog (c : Card) : LogEvent :=
  { LogEvent.blank c.id c.timestamp LogType.card with
    team := some c.team
    cardType := some c.type
    playerId := some c.player
    returned := some c.returned
    returnTime := c.returnTime
    half := some c.half
    matchTime := some c.matchTime }

/-- The substitution entry pushed by buildLogFromSnapshot. -/
def subToLog (x : Substitution) : LogEvent :=
  { LogEvent.blank x.id x.timestamp LogType.substitution with
    team := some x.team
    offPlayerId := some x.offPlayerId
    onPlayerId := some x.onPlayerId
    half := some x.half
    matchTime := some x.matchTime }

/-- The system entry pushed by buildLogFromSnapshot. -/
def sysToLog (e : SystemEvent) : LogEvent :=
  { LogEvent.blank e.id e.timestamp
      (match e.type with
       | .matchStart => LogType.matchStart
       | .halfTime => LogType.halfTime
       | .matchEnd => LogType.matchEnd) with
    half := some e.half
    matchTime := some e.matchTime }

/-- The MatchSnapshot interface of src/src/db/matches.ts (the nested config
object is flattened into its three flags). -/
structure MatchSnapshot where
  homeTeamName : String
  awayTeamName : String
  homeColor : String
  awayColor : String
  homeScore : Int
  awayScore : Int
  halfDuration : Nat
  competition : String
  venue : String
  referee : String
  currentHalf : Nat
  elapsedSeconds : Nat
  injuryTime : Nat
  playerTracking : Bool
  cardTracking : Bool
  substitutions : Bool
  scoreEvents : List ScoreEvent
  cards : List Card
  substitutionEvents : List Substitution
  systemEvents : List SystemEvent
  playerIds : List String
deriving DecidableEq, Repr

/-- stateToMatchSnapshot of src/src/db/matches.ts.  Note that the in-memory
cardReturnEvents list has no counterpart in the snapshot. -/
def stateToMatchSnapshot (s : MatchState) : MatchSnapshot where
  homeTeamName := s.homeTeam
  awayTeamName := s.awayTeam
  homeColor := s.homeColor
  awayColor := s.awayColor
  homeScore := s.homeScore
  awayScore := s.awayScore
  halfDuration := s.halfDuration
  competition := s.competition
  venue := s.venue
  referee := s.referee
  currentHalf := s.currentHalf
  elapsedSeconds := s.elapsedSeconds
  injuryTime := s.injuryTime
  playerTracking := s.playerTracking
  cardTracking := s.cardTracking
  substitutions := s.substitutions
  scoreEvents := s.scoreEvents
  cards := s.cards
  substitutionEvents := s.substitutionEvents
  systemEvents := s.systemEvents
  playerIds := s.players.map fun p => p.id

/-- buildLogFromSnapshot of src/src/db/matches.ts: one entry per score,
card, substitution and system event, then a stable sort by timestamp. -/
def buildLogFromSnapshot (snap : MatchSnapshot) : List LogEvent :=
  sortBy (fun a b => decide (a.timestamp ≤ b.timestamp))
    (snap.scoreEvents.map scoreToLog ++ snap.cards.map cardToLog ++
      snap.substitutionEvents.map subToLog ++ snap.systemEvents.map sysToLog)

/-- Contribution of one score event to a team's total: points when the
event is non-pending and owned by the team, zero otherwise. -/
def scoreContrib (team : Team) (e : ScoreEvent) : Int :=
  if e.pending = false ∧ e.team = team then e.points else 0

/-- Sum of the points of the non-pending score events of a team (the
score-consistency reference value of spec section 8). -/
def teamSum (team : Team) (events : List ScoreEvent) : Int :=
  (events.map (scoreContrib team)).sum

/-- Reconstructed score contribution of one persisted log entry (round-trip
reading of spec section 8): non-pending score entries count their points. -/
def logScoreContrib (team : Team) (ev : LogEvent) : Int :=
  if ev.type = LogType.score ∧ ev.team = some team ∧ ev.pending ≠ some true
  then ev.points.getD 0 else 0

/-- Team score reconstructed from a persisted log. -/
def logTeamScore (team : Team) (log : List LogEvent) : Int :=
  (log.map (logScoreContrib team)).sum

/-- Card reconstructed from a persisted log entry (round-trip reading of
spec section 8; the minute field, not persisted, is re-derived from
matchTime). -/
def logToCard (ev : LogEvent) : Option Card :=
  if ev.type = LogType.card then
    match ev.team, ev.cardType, ev.playerId with
    | some t, some ct, some pid =>
      some
        { id := ev.id
          timestamp := ev.timestamp
          team := t
          player := pid
          type := ct
          half := ev.half.getD 0
          minute := ev.matchTime.getD 0 / 60
          matchTime := ev.matchTime.getD 0
          returnTime := ev.returnTime
          returned := ev.returned.getD false }
    | _, _, _ => none
  else none

/-- Substitution reconstructed from a persisted log entry (round-trip
reading of spec section 8). -/
def logToSub (ev : LogEvent) : Option Substitution :=
  if ev.type = LogType.substitution then
    match ev.team, ev.offPlayerId, ev.onPlayerId with
    | some t, some offId, some onId =>
      some
        { id := ev.id
          timestamp := ev.timestamp
          team := t
          offPlayerId := offId
          onPlayerId := onId
          half := ev.half.getD 0
          minute := ev.matchTime.getD 0 / 60
          matchTime := ev.matchTime.getD 0 }
    | _, _, _ => none
  else none

/-- All cards of a persisted log. -/
def cardsOfLog (log : List LogEvent) : List Card :=
  log.filterMap logToCard

/-- All substitutions of a persisted log. -/
def subsOfLog (log : List LogEvent) : List Substitution :=
  log.filterMap logToSub

/-- Events that drive the recomputed lastTryTeam: non-pending tries,
penalty-tries and conversions. -/
def relevantScoring (e : ScoreEvent) : Bool :=
  !e.pending &&
    (e.type == ScoreType.tryScore || e.type == ScoreType.penaltyTry ||
      e.type == ScoreType.conversion)

/-- Modelled from the spec: conversion eligibility as claim C2 states it —
the most recent non-pending try or penalty-try belongs to the same team,
with no intervening non-pending try or penalty-try and the eligibility not
already consumed by a conversion (the last non-pending event among tries,
penalty-tries and conversions is a try or penalty-try of this team). -/
def specConversionEligible (events : List ScoreEvent) (team : Team) : Bool :=
  match (events.filter relevantScoring).getLast? with
  | some e =>
    (e.type == ScoreType.tryScore || e.type == ScoreType.penaltyTry) &&
      e.team == team
  | none => false

/-- Modelled from the spec: the lastTryTeam reducer as claim C5 states it —
set to the scoring team on an approved try or penalty-try, cleared to null
immediately after a conversion. -/
def specReduceLastTry (events : List ScoreEvent) : Option Team :=
  events.foldl
    (fun acc e =>
      if e.pending then acc
      else if e.type = ScoreType.tryScore ∨ e.type = ScoreType.penaltyTry then
        some e.team
      else if e.type = ScoreType.conversion then none
      else acc)
    none

/-- Declarative conversion eligibility of the source guard: the ledger ends,
after position of e, in events none of which is a non-pending try; e itself
is a non-pending try of the team. -/
def ConvEligible (events : List ScoreEvent) (team : Team) : Prop :=
  ∃ l1 e l2, events = l1 ++ e :: l2 ∧ e.type = ScoreType.tryScore ∧
    e.pending = false ∧ e.team = team ∧
    ∀ f ∈ l2, f.type = ScoreType.tryScore → f.pending = true

/-- Score consistency (spec section 8), strengthened with the id
distinctness that crypto.randomUUID provides: each team's score equals the
sum of its non-pending event points, and ledger ids are pairwise distinct. -/
def ScoreInv (s : MatchState) : Prop :=
  s.homeScore = teamSum Team.home s.scoreEvents ∧
  s.awayScore = teamSum Team.away s.scoreEvents ∧
  s.scoreEvents.Pairwise fun a b => a.id ≠ b.id

/-- States reachable from the initial store state through the five ledger
operations of claim C1, with the source's environment guarantees (fresh
event ids from crypto.randomUUID) but no restriction on which events
resolvePendingEvent may be applied to. -/
inductive ReachableAny : MatchState → Prop where
  | init : ReachableAny initState
  | stepAddScore {s team ty player pending id ts} : ReachableAny s →
      (∀ e ∈ s.scoreEvents, e.id ≠ id) →
      ReachableAny (addScore s team ty player pending id ts)
  | stepResolve {s eventId approved} : ReachableAny s →
      ReachableAny (resolvePendingEvent s eventId approved)
  | stepRemove {s eventId} : ReachableAny s →
      ReachableAny (removeScoreEvent s eventId)
  | stepUpdate {s eventId playerId} : ReachableAny s →
      ReachableAny (updateScoreEventPlayer s eventId playerId)
  | stepUndo {s} : ReachableAny s → ReachableAny (undo s)

/-- States reachable from the initial store state through the five ledger
operations of claim C1, where resolvePendingEvent is only invoked on events
that are still pending (the restriction of the amended claim). -/
inductive Reachable : MatchState → Prop where
  | init : Reachable initState
  | stepAddScore {s team ty player pending id ts} : Reachable s →
      (∀ e ∈ s.scoreEvents, e.id ≠ id) →
      Reachable (addScore s team ty player pending id ts)
  | stepResolve {s eventId approved} : Reachable s →
      (∀ e ∈ s.scoreEvents, e.id = eventId → e.pending = true) →
      Reachable (resolvePendingEvent s eventId approved)
  | stepRemove {s eventId} : Reachable s →
      Reachable (removeScoreEvent s eventId)
  | stepUpdate {s eventId playerId} : Reachable s →
      Reachable (updateScoreEventPlayer s eventId playerId)
  | stepUndo {s} : Reachable s → Reachable (undo s)

end Rugby


namespace Rugby

open scoped List

/-! ## General lemmas about the sums and the stable sort -/

theorem teamSum_nil (t : Team) : teamSum t [] = 0 := rfl

theorem teamSum_append (t : Team) (l1 l2 : List ScoreEvent) :
    teamSum t (l1 ++ l2) = teamSum t l1 + teamSum t l2 := by
  simp [teamSum]

theorem teamSum_concat (t : Team) (l : List ScoreEvent) (e : ScoreEvent) :
    teamSum t (l ++ [e]) = teamSum t l + scoreContrib t e := by
  simp [teamSum]

theorem teamSum_cons (t : Team) (e : ScoreEvent) (l : List ScoreEvent) :
    teamSum t (e :: l) = scoreContrib t e + teamSum t l := by
  simp [teamSum]

theorem insertSorted_perm (le : α → α → Bool) (a : α) (l : List α) :
    insertSorted le a l ~ a :: l := by
  induction l with
  | nil => exact List.Perm.refl _
  | cons b t ih =>
    simp only [insertSorted]
    by_cases h : le a b = true
    · simp [h]
    · simp only [h, if_false, Bool.false_eq_true]
      exact (ih.cons b).trans (List.Perm.swap a b t)

theorem sortBy_perm (le : α → α → Bool) (l : List α) : sortBy le l ~ l := by
  induction l with
  | nil => exact List.Perm.refl _
  | cons x xs ih =>
    exact (insertSorted_perm le x (sortBy le xs)).trans (ih.cons x)

theorem insertSorted_pairwise (le : α → α → Bool)
    (htrans : ∀ x y z, le x y = true → le y z = true → le x z = true)
    (htot : ∀ x y, le x y = false → le y x = true) (a : α) :
    ∀ {l : List α}, l.Pairwise (fun x y => le x y = true) →
      (insertSorted le a l).Pairwise (fun x y => le x y = true) := by
  intro l
  induction l with
  | nil => intro _; simp [insertSorted]
  | cons b t ih =>
    intro h
    rw [List.pairwise_cons] at h
    simp only [insertSorted]
    by_cases hc : le a b = true
    · simp only [hc, if_true]
      refine List.Pairwise.cons ?_ (List.Pairwise.cons h.1 h.2)
      intro y hy
      rcases List.mem_cons.1 hy with rfl | hy
      · exact hc
      · exact htrans a b y hc (h.1 y hy)
    · rw [Bool.not_eq_true] at hc
      simp only [hc, Bool.false_eq_true, if_false]
      refine List.Pairwise.cons ?_ (ih h.2)
      intro y hy
      have hy' := (insertSorted_perm le a t).mem_iff.1 hy
      rcases List.mem_cons.1 hy' with h1 | hy'
      · cases h1
        exact htot _ _ hc
      · exact h.1 y hy'

theorem sortBy_pairwise (le : α → α → Bool)
    (htrans : ∀ x y z, le x y = true → le y z = true → le x z = true)
    (htot : ∀ x y, le x y = false → le y x = true) (l : List α) :
    (sortBy le l).Pairwise (fun x y => le x y = true) := by
  induction l with
  | nil => simp [sortBy]
  | cons x xs ih => exact insertSorted_pairwise le htrans htot x ih

/-! ## Claim C10 -/

/-- C10: for every team, player list, substitution list, card list and
elapsed time, getSquadStatus returns onPitch and onBench lists that are
disjoint, each sorted in ascending shirt number, and containing only
players of the requested team. -/
theorem claim_C10_squad_lists_wellformed (team : Team) (players : List Player)
    (subs : List Substitution) (cards : List Card) (elapsed : Nat) :
    (∀ p, p ∈ (getSquadStatus team players subs cards elapsed).onPitch →
      p ∉ (getSquadStatus team players subs cards elapsed).onBench) ∧
    (getSquadStatus team players subs cards elapsed).onPitch.Pairwise
      (fun a b => a.number ≤ b.number) ∧
    (getSquadStatus team players subs cards elapsed).onBench.Pairwise
      (fun a b => a.number ≤ b.number) ∧
    (∀ p ∈ (getSquadStatus team players subs cards elapsed).onPitch, p.team = team) ∧
    (∀ p ∈ (getSquadStatus team players subs cards elapsed).onBench, p.team = team) := by
  have hsorted :
      (sortBy (fun a b : Player => decide (a.number ≤ b.number))
        (players.filter fun p => p.team == team)).Pairwise
        (fun a b => a.number ≤ b.number) := by
    have := sortBy_pairwise (fun a b : Player => decide (a.number ≤ b.number))
      (by intro x y z hxy hyz; simp only [decide_eq_true_eq] at *; omega)
      (by intro x y hxy; simp only [decide_eq_false_iff_not, decide_eq_true_eq] at *; omega)
      (players.filter fun p => p.team == team)
    exact this.imp (by intro a b h; simpa using h)
  have hteam :
      ∀ p ∈ sortBy (fun a b : Player => decide (a.number ≤ b.number))
        (players.filter fun q => q.team == team), p.team = team := by
    intro p hp
    have := (sortBy_perm _ _).mem_iff.1 hp
    have := (List.mem_filter.1 this).2
    simpa using this
  refine ⟨?_, ?_, ?_, ?_, ?_⟩
  · intro p hp hb
    simp only [getSquadStatus, List.mem_filter, Bool.and_eq_true,
      Bool.not_eq_true'] at hp hb
    have h1 := hp.2.1.1
    rw [hb.2] at h1
    cases h1
  · exact hsorted.filter _
  · exact hsorted.filter _
  · intro p hp
    exact hteam p (List.mem_filter.1 hp).1
  · intro p hp
    exact hteam p (List.mem_filter.1 hp).1

/-! ## Claim C7 -/

/-- C7 counterexample: with the default half duration of 2400 seconds, a
running state at 2399 elapsed seconds ticks to exactly 2400 — the tick on
which elapsed time first reaches the half duration — yet the running flag
stays true: the current tick never auto-pauses.  The legacy tick of
src/unnamed/part_000 does auto-pause on the same input. -/
theorem claim_C7_counterexample :
    ({ initState with isRunning := true, elapsedSeconds := 2399 } : MatchState).halfDuration = 2400 ∧
    (tick { initState with isRunning := true, elapsedSeconds := 2399 }).elapsedSeconds = 2400 ∧
    (tick { initState with isRunning := true, elapsedSeconds := 2399 }).isRunning = true ∧
    (tickLegacy { initState with isRunning := true, elapsedSeconds := 2399 }).isRunning = false := by
  refine ⟨rfl, ?_, ?_, ?_⟩ <;> decide

/-- C7 (amended): tick() leaves all state unchanged when the match is not
running; when running it increments elapsedSeconds by exactly one and
changes nothing else — in particular it never clears the running flag, so
no auto-pause occurs at the half-duration boundary. -/
theorem claim_C7_tick_contract (s : MatchState) :
    (s.isRunning = false → tick s = s) ∧
    (s.isRunning = true → tick s = { s with elapsedSeconds := s.elapsedSeconds + 1 }) := by
  constructor <;> intro h <;> simp [tick, h]

/-- C7 witness: the tick contract evaluated on concrete paused and running
states. -/
theorem claim_C7_witness :
    tick initState = initState ∧
    tick { initState with isRunning := true } =
      { initState with isRunning := true, elapsedSeconds := 0 + 1 } := by
  constructor
  · exact (claim_C7_tick_contract initState).1 rfl
  · exact (claim_C7_tick_contract { initState with isRunning := true }).2 rfl

/-! ## Claim C9 -/

/-- C9: removeCard changes only the cards list and removeSubstitution
changes only the substitutionEvents list (every other field of the state is
unchanged, for any id), and a call whose id is not present leaves the state
entirely unchanged. -/
theorem claim_C9_remove_card_sub_frame (s : MatchState) (cid sid : String)
    (hc : ∀ c ∈ s.cards, c.id ≠ cid)
    (hs : ∀ x ∈ s.substitutionEvents, x.id ≠ sid) :
    (∀ cid2 : String,
      (removeCard s cid2).homeTeam = s.homeTeam ∧
      (removeCard s cid2).awayTeam = s.awayTeam ∧
      (removeCard s cid2).homeColor = s.homeColor ∧
      (removeCard s cid2).awayColor = s.awayColor ∧
      (removeCard s cid2).halfDuration = s.halfDuration ∧
      (removeCard s cid2).playerTracking = s.playerTracking ∧
      (removeCard s cid2).cardTracking = s.cardTracking ∧
      (removeCard s cid2).substitutions = s.substitutions ∧
      (removeCard s cid2).competition = s.competition ∧
      (removeCard s cid2).venue = s.venue ∧
      (removeCard s cid2).referee = s.referee ∧
      (removeCard s cid2).homeScore = s.homeScore ∧
      (removeCard s cid2).awayScore = s.awayScore ∧
      (removeCard s cid2).scoreEvents = s.scoreEvents ∧
      (removeCard s cid2).players = s.players ∧
      (removeCard s cid2).substitutionEvents = s.substitutionEvents ∧
      (removeCard s cid2).systemEvents = s.systemEvents ∧
      (removeCard s cid2).cardReturnEvents = s.cardReturnEvents ∧
      (removeCard s cid2).currentHalf = s.currentHalf ∧
      (removeCard s cid2).elapsedSeconds = s.elapsedSeconds ∧
      (removeCard s cid2).injuryTime = s.injuryTime ∧
      (removeCard s cid2).isRunning = s.isRunning ∧
      (removeCard s cid2).lastTryTeam = s.lastTryTeam ∧
      (removeCard s cid2).matchStarted = s.matchStarted ∧
      (removeCard s cid2).currentMatchId = s.currentMatchId) ∧
    (∀ sid2 : String,
      (removeSubstitution s sid2).homeTeam = s.homeTeam ∧
      (removeSubstitution s sid2).awayTeam = s.awayTeam ∧
      (removeSubstitution s sid2).homeColor = s.homeColor ∧
      (removeSubstitution s sid2).awayColor = s.awayColor ∧
      (removeSubstitution s sid2).halfDuration = s.halfDuration ∧
      (removeSubstitution s sid2).playerTracking = s.playerTracking ∧
      (removeSubstitution s sid2).cardTracking = s.cardTracking ∧
      (removeSubstitution s sid2).substitutions = s.substitutions ∧
      (removeSubstitution s sid2).competition = s.competition ∧
      (removeSubstitution s sid2).venue = s.venue ∧
      (removeSubstitution s sid2).referee = s.referee ∧
      (removeSubstitution s sid2).homeScore = s.homeScore ∧
      (removeSubstitution s sid2).awayScore = s.awayScore ∧
      (removeSubstitution s sid2).scoreEvents = s.scoreEvents ∧
      (removeSubstitution s sid2).players = s.players ∧
      (removeSubstitution s sid2).cards = s.cards ∧
      (removeSubstitution s sid2).systemEvents = s.systemEvents ∧
      (removeSubstitution s sid2).cardReturnEvents = s.cardReturnEvents ∧
      (removeSubstitution s sid2).currentHalf = s.currentHalf ∧
      (removeSubstitution s sid2).elapsedSeconds = s.elapsedSeconds ∧
      (removeSubstitution s sid2).injuryTime = s.injuryTime ∧
      (removeSubstitution s sid2).isRunning = s.isRunning ∧
      (removeSubstitution s sid2).lastTryTeam = s.lastTryTeam ∧
      (removeSubstitution s sid2).matchStarted = s.matchStarted ∧
      (removeSubstitution s sid2).currentMatchId = s.currentMatchId) ∧
    removeCard s cid = s ∧ removeSubstitution s sid = s := by
  refine ⟨fun _ => ?_, fun _ => ?_, ?_, ?_⟩
  · exact ⟨rfl, rfl, rfl, rfl, rfl, rfl, rfl, rfl, rfl, rfl, rfl, rfl, rfl,
      rfl, rfl, rfl, rfl, rfl, rfl, rfl, rfl, rfl, rfl, rfl, rfl⟩
  · exact ⟨rfl, rfl, rfl, rfl, rfl, rfl, rfl, rfl, rfl, rfl, rfl, rfl, rfl,
      rfl, rfl, rfl, rfl, rfl, rfl, rfl, rfl, rfl, rfl, rfl, rfl⟩
  · show { s with cards := s.cards.filter fun c => c.id ≠ cid } = s
    have : (s.cards.filter fun c => c.id ≠ cid) = s.cards :=
      List.filter_eq_self.mpr fun c hmem => by
        simpa using hc c hmem
    rw [this]
  · show { s with substitutionEvents := s.substitutionEvents.filter fun x => x.id ≠ sid } = s
    have : (s.substitutionEvents.filter fun x => x.id ≠ sid) = s.substitutionEvents :=
      List.filter_eq_self.mpr fun x hmem => by
        simpa using hs x hmem
    rw [this]

/-- C9 witness: the frame theorem evaluated on a concrete state holding one
card and one substitution, removing ids that are not present. -/
theorem claim_C9_witness :
    (∀ c ∈ (addSubstitution (addCard initState Team.home "p7" CardType.yellow "c1" 1)
        Team.home "p7" "p8" none "s1" 2).cards, c.id ≠ "zz") ∧
    removeCard (addSubstitution (addCard initState Team.home "p7" CardType.yellow "c1" 1)
        Team.home "p7" "p8" none "s1" 2) "zz" =
      (addSubstitution (addCard initState Team.home "p7" CardType.yellow "c1" 1)
        Team.home "p7" "p8" none "s1" 2) := by
  refine ⟨by decide, ?_⟩
  exact (claim_C9_remove_card_sub_frame
    (addSubstitution (addCard initState Team.home "p7" CardType.yellow "c1" 1)
      Team.home "p7" "p8" none "s1" 2) "zz" "zz" (by decide) (by decide)).2.2.1

/-! ## Claim C4 -/

/-- C4 counterexample: after a confirmed home try, lastTryTeam is home;
adding a pending event then resets lastTryTeam to null instead of keeping
its prior value (the scores are indeed unchanged). -/
theorem claim_C4_counterexample :
    (addScore initState Team.home ScoreType.tryScore none false "e1" 1).lastTryTeam =
      some Team.home ∧
    (addScore (addScore initState Team.home ScoreType.tryScore none false "e1" 1)
        Team.away ScoreType.penalty none true "e2" 2).homeScore =
      (addScore initState Team.home ScoreType.tryScore none false "e1" 1).homeScore ∧
    (addScore (addScore initState Team.home ScoreType.tryScore none false "e1" 1)
        Team.away ScoreType.penalty none true "e2" 2).awayScore =
      (addScore initState Team.home ScoreType.tryScore none false "e1" 1).awayScore ∧
    (addScore (addScore initState Team.home ScoreType.tryScore none false "e1" 1)
        Team.away ScoreType.penalty none true "e2" 2).lastTryTeam = none := by
  refine ⟨?_, ?_, ?_, ?_⟩ <;> decide

/-- C4 (amended): adding a pending score event never changes homeScore or
awayScore; when the event is recorded (every call except a rejected
conversion) lastTryTeam is reset to null rather than kept; a rejected
conversion leaves the whole state unchanged. -/
theorem claim_C4_pending_add_neutral (s : MatchState) (team : Team)
    (ty : ScoreType) (player : Option String) (id : String) (ts : Nat) :
    (addScore s team ty player true id ts).homeScore = s.homeScore ∧
    (addScore s team ty player true id ts).awayScore = s.awayScore ∧
    (addScore s team ty player true id ts = s ∨
      (addScore s team ty player true id ts).lastTryTeam = none) := by
  unfold addScore
  by_cases h : (ty == ScoreType.conversion &&
      match lastNonPendingTry s.scoreEvents with
      | none => true
      | some lastTry => lastTry.team != team) = true
  · simp [h]
  · rw [Bool.not_eq_true] at h
    simp only [h, Bool.false_eq_true, if_false]
    cases team <;> simp

/-! ## Claim C3 -/

/-- C3: a yellow card issued at elapsed time T records returnTime T + 600;
the sin-bin predicate of the squad resolver holds for the carded player at
every elapsed time in [T, T + 600) and the new card contributes no
exclusion at or after T + 600 (membership there equals what the prior cards
give); any player the sin-bin predicate excludes is kept off onPitch; and
once the card is manually returned its exclusion is gone at every elapsed
time. -/
theorem claim_C3_sinbin_boundary (s : MatchState) (team : Team)
    (pid id : String) (ts T : Nat)
    (hT : s.elapsedSeconds = T)
    (hfresh : ∀ c ∈ s.cards, c.id ≠ id) :
    (addCard s team pid CardType.yellow id ts).cards.map Card.returnTime =
      s.cards.map Card.returnTime ++ [some (T + 600)] ∧
    (∀ e, T ≤ e → e < T + 600 →
      inSinBin (addCard s team pid CardType.yellow id ts).cards team e pid = true) ∧
    (∀ e, T + 600 ≤ e →
      inSinBin (addCard s team pid CardType.yellow id ts).cards team e pid =
        inSinBin s.cards team e pid) ∧
    (∀ e ps subs p, p ∈ (getSquadStatus team ps subs
        (addCard s team pid CardType.yellow id ts).cards e).onPitch →
      inSinBin (addCard s team pid CardType.yellow id ts).cards team e p.id = false) ∧
    (∀ rid rts e,
      inSinBin (returnFromSinBin (addCard s team pid CardType.yellow id ts) id rid rts).cards
        team e pid = inSinBin s.cards team e pid) := by
  subst hT
  refine ⟨by simp [addCard], ?_, ?_, ?_, ?_⟩
  · intro e _ he2
    simp [inSinBin, addCard, List.any_append, he2]
  · intro e he
    have : ¬ e < s.elapsedSeconds + 600 := by omega
    simp [inSinBin, addCard, List.any_append, this]
  · intro e ps subs p hp
    simp only [getSquadStatus, List.mem_filter, Bool.and_eq_true,
      Bool.not_eq_true'] at hp
    exact hp.2.2
  · intro rid rts e
    have h1 : s.cards.find? (fun c => c.id == id) = none :=
      List.find?_eq_none.mpr fun c hmem => by
        simpa using hfresh c hmem
    have hmapold :
        (s.cards.map fun c =>
          if c.id == id then { c with returned := true } else c) = s.cards := by
      refine (List.map_congr_left ?_).trans (List.map_id s.cards)
      intro c hmem
      have : (c.id == id) = false := by
        simpa using hfresh c hmem
      simp [this]
    simp only [returnFromSinBin, addCard, List.find?_append, h1,
      Option.none_or, List.map_append, hmapold]
    simp [inSinBin, List.any_append]

/-- C3 witness: the sin-bin boundary theorem evaluated for a yellow card
issued at elapsed time 0. -/
theorem claim_C3_witness :
    (addCard initState Team.home "p1" CardType.yellow "c1" 5).cards.map Card.returnTime =
      initState.cards.map Card.returnTime ++ [some (0 + 600)] ∧
    (∀ e, 0 ≤ e → e < 0 + 600 →
      inSinBin (addCard initState Team.home "p1" CardType.yellow "c1" 5).cards
        Team.home e "p1" = true) ∧
    (∀ e, 0 + 600 ≤ e →
      inSinBin (addCard initState Team.home "p1" CardType.yellow "c1" 5).cards
        Team.home e "p1" = inSinBin initState.cards Team.home e "p1") ∧
    (∀ e ps subs p, p ∈ (getSquadStatus Team.home ps subs
        (addCard initState Team.home "p1" CardType.yellow "c1" 5).cards e).onPitch →
      inSinBin (addCard initState Team.home "p1" CardType.yellow "c1" 5).cards
        Team.home e p.id = false) ∧
    (∀ rid rts e,
      inSinBin (returnFromSinBin (addCard initState Team.home "p1" CardType.yellow "c1" 5)
          "c1" rid rts).cards Team.home e "p1" =
        inSinBin initState.cards Team.home e "p1") :=
  claim_C3_sinbin_boundary initState Team.home "p1" "c1" 5 0 rfl (by simp [initState])

/-! ## Claim C2 -/

/-- The conversion guard succeeds with event e exactly when the ledger
splits before e, e is a non-pending try, and no non-pending try follows. -/
theorem lastNonPendingTry_eq_some_iff (events : List ScoreEvent) (e : ScoreEvent) :
    lastNonPendingTry events = some e ↔
      ∃ l1 l2, events = l1 ++ e :: l2 ∧ e.type = ScoreType.tryScore ∧
        e.pending = false ∧
        ∀ f ∈ l2, f.type = ScoreType.tryScore → f.pending = true := by
  unfold lastNonPendingTry
  rw [List.filter_getLast?, List.find?_eq_some]
  constructor
  · rintro ⟨hp, as, bs, hrev, hall⟩
    simp only [Bool.and_eq_true, beq_iff_eq, Bool.not_eq_true'] at hp
    refine ⟨bs.reverse, as.reverse, ?_, hp.1, hp.2, ?_⟩
    · have := congrArg List.reverse hrev
      simpa [List.reverse_append] using this
    · intro f hf hty
      have hf' : f ∈ as := by simpa using hf
      have := hall f hf'
      simp only [Bool.not_eq_true', Bool.and_eq_false_iff, beq_eq_false_iff_ne,
        Bool.not_eq_false] at this
      rcases this with h | h
      · exact absurd hty h
      · simpa using h
  · rintro ⟨l1, l2, rfl, h1, h2, h3⟩
    refine ⟨?_, l2.reverse, l1.reverse, ?_, ?_⟩
    · simp [h1, h2]
    · simp [List.reverse_append]
    · intro f hf
      have hf' : f ∈ l2 := by simpa using hf
      by_cases hty : f.type = ScoreType.tryScore
      · simp [hty, h3 f hf' hty]
      · simp [hty]

/-- The declarative eligibility matches the guard computation. -/
theorem convEligible_iff (events : List ScoreEvent) (team : Team) :
    ConvEligible events team ↔
      ∃ e, lastNonPendingTry events = some e ∧ e.team = team := by
  constructor
  · rintro ⟨l1, e, l2, rfl, h1, h2, h3, h4⟩
    exact ⟨e, (lastNonPendingTry_eq_some_iff _ e).2 ⟨l1, l2, rfl, h1, h2, h4⟩, h3⟩
  · rintro ⟨e, he, hteam⟩
    obtain ⟨l1, l2, rfl, h1, h2, h4⟩ := (lastNonPendingTry_eq_some_iff _ e).1 he
    exact ⟨l1, e, l2, rfl, h1, h2, hteam, h4⟩

/-- C2 counterexample: an approved home penalty-try satisfies the claimed
eligibility (most recent non-pending try or penalty-try, same team, not
consumed), yet the conversion call leaves the state entirely unchanged —
the source guard looks only for events of kind try. -/
theorem claim_C2_counterexample :
    specConversionEligible
      (addScore initState Team.home ScoreType.penaltyTry none false "e1" 1).scoreEvents
      Team.home = true ∧
    addScore (addScore initState Team.home ScoreType.penaltyTry none false "e1" 1)
        Team.home ScoreType.conversion none false "e2" 2 =
      addScore initState Team.home ScoreType.penaltyTry none false "e1" 1 := by
  refine ⟨by decide, by decide⟩

/-- C2 (amended): a conversion submission is recorded exactly when the most
recent non-pending event of kind try (penalty-tries do not count, pending
tries do not count, and prior conversions do not consume eligibility)
belongs to the same team; when no such try exists the call leaves the
whole state — in particular scoreEvents and both scores — unchanged. -/
theorem claim_C2_conversion_acceptance (s : MatchState) (team : Team)
    (player : Option String) (pending : Bool) (id : String) (ts : Nat) :
    (ConvEligible s.scoreEvents team →
      (addScore s team ScoreType.conversion player pending id ts).scoreEvents =
        s.scoreEvents ++
          [{ id := id, timestamp := ts, team := team, type := ScoreType.conversion,
             points := 2, player := player, half := s.currentHalf,
             minute := s.elapsedSeconds / 60, matchTime := s.elapsedSeconds,
             pending := pending }] ∧
      (addScore s team ScoreType.conversion player pending id ts).homeScore =
        s.homeScore + (if team = Team.home ∧ pending = false then 2 else 0) ∧
      (addScore s team ScoreType.conversion player pending id ts).awayScore =
        s.awayScore + (if team = Team.away ∧ pending = false then 2 else 0)) ∧
    (¬ ConvEligible s.scoreEvents team →
      addScore s team ScoreType.conversion player pending id ts = s) := by
  constructor
  · intro helig
    obtain ⟨e, he, hteam⟩ := (convEligible_iff _ _).1 helig
    unfold addScore
    rw [he]
    cases team <;> cases pending <;>
      simp_all [pointsFor, hteam]
  · intro hne
    unfold addScore
    cases hlast : lastNonPendingTry s.scoreEvents with
    | none => simp [hlast]
    | some e =>
      have hnt : e.team ≠ team := fun h => hne ((convEligible_iff _ _).2 ⟨e, hlast, h⟩)
      simp [hlast, hnt]

/-- C2 witness: after a confirmed home try, a home conversion is eligible
and recorded, raising the home score from 5 to 7. -/
theorem claim_C2_witness :
    ConvEligible
      (addScore initState Team.home ScoreType.tryScore none false "t1" 1).scoreEvents
      Team.home ∧
    (addScore (addScore initState Team.home ScoreType.tryScore none false "t1" 1)
        Team.home ScoreType.conversion none false "k1" 9).homeScore = 7 := by
  have helig : ConvEligible
      (addScore initState Team.home ScoreType.tryScore none false "t1" 1).scoreEvents
      Team.home :=
    ⟨[], { id := "t1", timestamp := 1, team := Team.home, type := ScoreType.tryScore,
           points := 5, player := none, half := 1, minute := 0, matchTime := 0,
           pending := false }, [], by decide, rfl, rfl, rfl, by simp⟩
  refine ⟨helig, ?_⟩
  have h := (claim_C2_conversion_acceptance
    (addScore initState Team.home ScoreType.tryScore none false "t1" 1)
    Team.home none false "k1" 9).1 helig
  rw [h.2.1]
  decide

/-! ## Claim C5 -/

/-- Closed form of the removeScoreEvent recompute fold. -/
theorem recompute_foldl (l : List ScoreEvent) :
    ∀ acc : Int × Int × Option Team,
      l.foldl recomputeStep acc =
        (acc.1 + teamSum Team.home l, acc.2.1 + teamSum Team.away l,
          ((l.filter relevantScoring).getLast?).elim acc.2.2 fun e => some e.team) := by
  induction l with
  | nil => intro acc; simp [teamSum]
  | cons e t ih =>
    intro acc
    rw [List.foldl_cons, ih]
    by_cases hp : e.pending = true
    · have hstep : recomputeStep acc e = acc := by
        simp [recomputeStep, hp]
      have hrel : relevantScoring e = false := by
        simp [relevantScoring, hp]
      have hcontribH : scoreContrib Team.home e = 0 := by
        simp [scoreContrib, hp]
      have hcontribA : scoreContrib Team.away e = 0 := by
        simp [scoreContrib, hp]
      simp [hstep, hrel, teamSum_cons, hcontribH, hcontribA]
    · rw [Bool.not_eq_true] at hp
      have hstep : recomputeStep acc e =
          (acc.1 + scoreContrib Team.home e, acc.2.1 + scoreContrib Team.away e,
            if e.type = ScoreType.tryScore ∨ e.type = ScoreType.penaltyTry then some e.team
            else if e.type = ScoreType.conversion then some e.team
            else acc.2.2) := by
        cases he : e.team <;>
          simp [recomputeStep, hp, scoreContrib, he]
      rw [hstep]
      by_cases hrel : relevantScoring e = true
      · have hlt :
            (if e.type = ScoreType.tryScore ∨ e.type = ScoreType.penaltyTry then some e.team
              else if e.type = ScoreType.conversion then some e.team
              else acc.2.2) = some e.team := by
          simp only [relevantScoring, hp, Bool.not_false, Bool.true_and,
            Bool.or_eq_true, beq_iff_eq] at hrel
          rcases hrel with (h | h) | h <;> simp [h]
        have hfil : (e :: t).filter relevantScoring = e :: t.filter relevantScoring := by
          simp [hrel]
        rw [teamSum_cons, teamSum_cons, hfil, hlt]
        cases hft : (t.filter relevantScoring).getLast? with
        | none =>
          have : t.filter relevantScoring = [] := by
            simpa using hft
          simp [this]
          constructor <;> ring
        | some f =>
          obtain ⟨ys, hys⟩ := List.getLast?_eq_some_iff.1 hft
          rw [hys]
          have hgl : (e :: (ys ++ [f])).getLast? = some f := by
            rw [← List.cons_append, List.getLast?_concat]
          simp [hgl]
          constructor <;> ring
      · rw [Bool.not_eq_true] at hrel
        have hlt :
            (if e.type = ScoreType.tryScore ∨ e.type = ScoreType.penaltyTry then some e.team
              else if e.type = ScoreType.conversion then some e.team
              else acc.2.2) = acc.2.2 := by
          simp only [relevantScoring, hp, Bool.not_false, Bool.true_and,
            Bool.or_eq_false_iff, beq_eq_false_iff_ne] at hrel
          simp [hrel.1.1, hrel.1.2, hrel.2]
        have hfil : (e :: t).filter relevantScoring = t.filter relevantScoring := by
          simp [hrel]
        rw [teamSum_cons, teamSum_cons, hfil, hlt]
        simp
        constructor <;> ring

/-- The recompute of removeScoreEvent in closed form: the two team sums and
the team of the last non-pending try, penalty-try or conversion. -/
theorem recompute_eq (l : List ScoreEvent) :
    recompute l =
      (teamSum Team.home l, teamSum Team.away l,
        ((l.filter relevantScoring).getLast?).map fun e => e.team) := by
  rw [recompute, recompute_foldl]
  cases h : (l.filter relevantScoring).getLast? <;> simp

/-- C5 counterexample: ledger home try, home conversion, home penalty;
removing the penalty leaves [try, conversion].  The claimed reducer clears
lastTryTeam to null immediately after the conversion, but the source
recompute sets it to the converting team, and the state ends with
lastTryTeam = home while the claimed reduction gives null. -/
theorem claim_C5_counterexample :
    (removeScoreEvent (addScore (addScore (addScore initState
        Team.home ScoreType.tryScore none false "e1" 1)
        Team.home ScoreType.conversion none false "e2" 2)
        Team.home ScoreType.penalty none false "e3" 3) "e3").lastTryTeam =
      some Team.home ∧
    specReduceLastTry (removeScoreEvent (addScore (addScore (addScore initState
        Team.home ScoreType.tryScore none false "e1" 1)
        Team.home ScoreType.conversion none false "e2" 2)
        Team.home ScoreType.penalty none false "e3" 3) "e3").scoreEvents = none := by
  refine ⟨by decide, by decide⟩

/-- C5 (amended): removeScoreEvent fully recomputes the derived score
state from the remaining ledger in order — homeScore and awayScore equal
the sums of the remaining non-pending points per team, and lastTryTeam
equals the team of the last remaining non-pending try, penalty-try or
conversion (null when there is none); the source recompute keeps the
converting team on a conversion rather than clearing to null. -/
theorem claim_C5_remove_recompute (s : MatchState) (eventId : String) :
    (removeScoreEvent s eventId).scoreEvents =
      s.scoreEvents.filter (fun e => e.id ≠ eventId) ∧
    (removeScoreEvent s eventId).homeScore =
      teamSum Team.home (s.scoreEvents.filter fun e => e.id ≠ eventId) ∧
    (removeScoreEvent s eventId).awayScore =
      teamSum Team.away (s.scoreEvents.filter fun e => e.id ≠ eventId) ∧
    (removeScoreEvent s eventId).lastTryTeam =
      (((s.scoreEvents.filter fun e => e.id ≠ eventId).filter
        relevantScoring).getLast?).map fun e => e.team := by
  refine ⟨rfl, ?_, ?_, ?_⟩ <;>
    simp [removeScoreEvent, recompute_eq]

/-! ## Claim C6 -/

theorem lastTimeBy_nil (f : α → Nat) : lastTimeBy f ([] : List α) = 0 := rfl

theorem lastTimeBy_eq (f : α → Nat) {l : List α} {x : α}
    (hx : l.getLast? = some x) : lastTimeBy f l = f x := by
  simp [lastTimeBy, hx]

theorem getLast?_of_ne_nil {l : List α} (hl : l ≠ []) :
    ∃ x, l.getLast? = some x ∧ x ∈ l := by
  cases hgl : l.getLast? with
  | none => exact absurd (List.getLast?_eq_none_iff.1 hgl) hl
  | some x =>
    obtain ⟨ys, hys⟩ := List.getLast?_eq_some_iff.1 hgl
    exact ⟨x, rfl, by simp [hys]⟩

theorem lastTimeBy_pos (f : α → Nat) {l : List α} (hl : l ≠ [])
    (h : ∀ x ∈ l, 1 ≤ f x) : 1 ≤ lastTimeBy f l := by
  obtain ⟨x, hx, hmem⟩ := getLast?_of_ne_nil hl
  rw [lastTimeBy_eq f hx]
  exact h x hmem

/-- C6: undo removes exactly one event — the last element of exactly one of
the three event lists, the others unchanged — whose timestamp t dominates
every timestamp across score events, cards and substitutions; whenever the
removed event is not a substitution, every substitution is strictly below
t (substitutions win ties); and undo on an all-empty ledger is a no-op.
The hypotheses record the source environment: Date.now timestamps are
positive and per-list monotone, so each list's last element carries its
greatest timestamp. -/
theorem claim_C6_undo_removes_latest (s : MatchState)
    (h1 : ∀ e ∈ s.scoreEvents, 1 ≤ e.timestamp)
    (h2 : ∀ c ∈ s.cards, 1 ≤ c.timestamp)
    (h3 : ∀ x ∈ s.substitutionEvents, 1 ≤ x.timestamp)
    (hs1 : ∀ e ∈ s.scoreEvents,
      e.timestamp ≤ lastTimeBy ScoreEvent.timestamp s.scoreEvents)
    (hs2 : ∀ c ∈ s.cards, c.timestamp ≤ lastTimeBy Card.timestamp s.cards)
    (hs3 : ∀ x ∈ s.substitutionEvents,
      x.timestamp ≤ lastTimeBy Substitution.timestamp s.substitutionEvents) :
    (s.scoreEvents = [] ∧ s.cards = [] ∧ s.substitutionEvents = [] →
      undo s = s) ∧
    ((s.scoreEvents ≠ [] ∨ s.cards ≠ [] ∨ s.substitutionEvents ≠ []) →
      ∃ t : Nat,
        (∀ e ∈ s.scoreEvents, e.timestamp ≤ t) ∧
        (∀ c ∈ s.cards, c.timestamp ≤ t) ∧
        (∀ x ∈ s.substitutionEvents, x.timestamp ≤ t) ∧
        ((∃ x, s.substitutionEvents.getLast? = some x ∧ x.timestamp = t ∧
            undo s = { s with substitutionEvents := s.substitutionEvents.dropLast }) ∨
         ((∀ x ∈ s.substitutionEvents, x.timestamp < t) ∧
          (∃ e, s.scoreEvents.getLast? = some e ∧ e.timestamp = t) ∧
          (undo s).scoreEvents = s.scoreEvents.dropLast ∧
          (undo s).cards = s.cards ∧
          (undo s).substitutionEvents = s.substitutionEvents) ∨
         ((∀ x ∈ s.substitutionEvents, x.timestamp < t) ∧
          ∃ c, s.cards.getLast? = some c ∧ c.timestamp = t ∧
            undo s = { s with cards := s.cards.dropLast }))) := by
  constructor
  · rintro ⟨he, hc, hx⟩
    unfold undo
    simp [he, hc, hx]
  · intro hne
    by_cases hA : lastTimeBy Substitution.timestamp s.substitutionEvents ≥
          lastTimeBy ScoreEvent.timestamp s.scoreEvents ∧
        lastTimeBy Substitution.timestamp s.substitutionEvents ≥
          lastTimeBy Card.timestamp s.cards ∧
        s.substitutionEvents ≠ []
    · have hundo : undo s =
          { s with substitutionEvents := s.substitutionEvents.dropLast } := by
        unfold undo
        rw [if_pos hA]
      obtain ⟨hA1, hA2, hA3⟩ := hA
      obtain ⟨x, hx, _⟩ := getLast?_of_ne_nil hA3
      have hxt := lastTimeBy_eq Substitution.timestamp hx
      refine ⟨x.timestamp, ?_, ?_, ?_, Or.inl ⟨x, hx, rfl, hundo⟩⟩
      · intro e he
        exact le_trans (hs1 e he) (hxt ▸ hA1)
      · intro c hc
        exact le_trans (hs2 c hc) (hxt ▸ hA2)
      · intro y hy
        exact le_trans (hs3 y hy) (le_of_eq hxt)
    · by_cases hB : lastTimeBy ScoreEvent.timestamp s.scoreEvents >
            lastTimeBy Card.timestamp s.cards ∧
          lastTimeBy ScoreEvent.timestamp s.scoreEvents >
            lastTimeBy Substitution.timestamp s.substitutionEvents ∧
          s.scoreEvents ≠ []
      · obtain ⟨hB1, hB2, hB3⟩ := hB
        obtain ⟨e, hegl, _⟩ := getLast?_of_ne_nil hB3
        obtain ⟨eid, ets, eteam, ety, epts, epl, eh2, em2, emt2, ep2⟩ := e
        have het := lastTimeBy_eq ScoreEvent.timestamp hegl
        have hundo : (undo s).scoreEvents = s.scoreEvents.dropLast ∧
            (undo s).cards = s.cards ∧
            (undo s).substitutionEvents = s.substitutionEvents := by
          unfold undo
          rw [if_neg hA, if_pos ⟨hB1, hB2, hB3⟩, hegl]
          cases eteam <;> exact ⟨rfl, rfl, rfl⟩
        simp only [ScoreEvent.timestamp] at het
        refine ⟨ets, ?_, ?_, ?_,
          Or.inr (Or.inl ⟨?_, ⟨_, hegl, rfl⟩, hundo.1, hundo.2.1, hundo.2.2⟩)⟩
        · intro y hy
          exact le_trans (hs1 y hy) (le_of_eq het)
        · intro c hc
          have := hs2 c hc
          omega
        · intro y hy
          have := hs3 y hy
          omega
        · intro y hy
          have := hs3 y hy
          omega
      · push_neg at hA hB
        by_cases hC : s.cards ≠ []
        · have hundo : undo s = { s with cards := s.cards.dropLast } := by
            unfold undo
            rw [if_neg, if_neg, if_pos hC]
            · intro hcon
              exact hcon.2.2 (hB hcon.1 hcon.2.1)
            · intro hcon
              exact hcon.2.2 (hA hcon.1 hcon.2.1)
          obtain ⟨c, hcgl, _⟩ := getLast?_of_ne_nil hC
          have hct := lastTimeBy_eq Card.timestamp hcgl
          have hsub_lt : ∀ x ∈ s.substitutionEvents,
              x.timestamp < c.timestamp := by
            intro x hx
            have hsne : s.substitutionEvents ≠ [] := List.ne_nil_of_mem hx
            have hx1 := hs3 x hx
            by_cases hse : s.scoreEvents = []
            · have he0 : lastTimeBy ScoreEvent.timestamp s.scoreEvents = 0 := by
                rw [hse]
                rfl
              have hlt : lastTimeBy Substitution.timestamp s.substitutionEvents <
                  lastTimeBy Card.timestamp s.cards := by
                by_contra hge
                exact hsne (hA (by omega) (by omega))
              omega
            · have he1 := lastTimeBy_pos ScoreEvent.timestamp hse h1
              by_cases hEC : lastTimeBy ScoreEvent.timestamp s.scoreEvents ≤
                  lastTimeBy Card.timestamp s.cards
              · rcases Nat.lt_or_ge (lastTimeBy Substitution.timestamp s.substitutionEvents)
                  (lastTimeBy ScoreEvent.timestamp s.scoreEvents) with h | h
                · omega
                · have hlt : lastTimeBy Substitution.timestamp s.substitutionEvents <
                      lastTimeBy Card.timestamp s.cards := by
                    by_contra hge
                    exact hsne (hA h (by omega))
                  omega
              · have himp := hB (by omega)
                have hesub : lastTimeBy ScoreEvent.timestamp s.scoreEvents ≤
                    lastTimeBy Substitution.timestamp s.substitutionEvents := by
                  by_contra hcon
                  exact hse (himp (by omega))
                have hlt : lastTimeBy Substitution.timestamp s.substitutionEvents <
                    lastTimeBy Card.timestamp s.cards := by
                  by_contra hge
                  exact hsne (hA (by omega) (by omega))
                omega
          have hsc_le : ∀ y ∈ s.scoreEvents, y.timestamp ≤ c.timestamp := by
            intro y hy
            have hse : s.scoreEvents ≠ [] := List.ne_nil_of_mem hy
            have he1 := lastTimeBy_pos ScoreEvent.timestamp hse h1
            have hytop := hs1 y hy
            by_cases hEC : lastTimeBy ScoreEvent.timestamp s.scoreEvents ≤
                lastTimeBy Card.timestamp s.cards
            · omega
            · have himp := hB (by omega)
              have hesub : lastTimeBy ScoreEvent.timestamp s.scoreEvents ≤
                  lastTimeBy Substitution.timestamp s.substitutionEvents := by
                by_contra hcon
                exact hse (himp (by omega))
              have hsubne : s.substitutionEvents ≠ [] := by
                intro h0
                rw [h0] at hesub
                have : lastTimeBy Substitution.timestamp ([] : List Substitution) = 0 := rfl
                omega
              have hlt : lastTimeBy Substitution.timestamp s.substitutionEvents <
                  lastTimeBy Card.timestamp s.cards := by
                by_contra hge
                exact hsubne (hA (by omega) (by omega))
              omega
          refine ⟨c.timestamp, hsc_le, ?_, ?_,
            Or.inr (Or.inr ⟨hsub_lt, c, hcgl, rfl, hundo⟩)⟩
          · intro y hy
            exact le_trans (hs2 y hy) (le_of_eq hct)
          · intro y hy
            exact le_of_lt (hsub_lt y hy)
        · exfalso
          push_neg at hC
          have hc0 : lastTimeBy Card.timestamp s.cards = 0 := by
            rw [hC]
            rfl
          rcases hne with hne | hne | hne
          · have he1 := lastTimeBy_pos ScoreEvent.timestamp hne h1
            have himp := hB (by omega)
            have hesub : lastTimeBy ScoreEvent.timestamp s.scoreEvents ≤
                lastTimeBy Substitution.timestamp s.substitutionEvents := by
              by_contra hcon
              exact hne (himp (by omega))
            have hsubne : s.substitutionEvents ≠ [] := by
              intro h0
              rw [h0] at hesub
              have : lastTimeBy Substitution.timestamp ([] : List Substitution) = 0 := rfl
              omega
            exact hsubne (hA (by omega) (by omega))
          · exact hne hC
          · have hsub1 := lastTimeBy_pos Substitution.timestamp hne h3
            rcases Nat.lt_or_ge (lastTimeBy Substitution.timestamp s.substitutionEvents)
              (lastTimeBy ScoreEvent.timestamp s.scoreEvents) with h | h
            · have hse : s.scoreEvents ≠ [] := by
                intro h0
                rw [h0] at h
                have : lastTimeBy ScoreEvent.timestamp ([] : List ScoreEvent) = 0 := rfl
                omega
              exact hse (hB (by omega) (by omega))
            · exact hne (hA h (by omega))

/-- C6 witness: on a ledger holding one score event (timestamp 5) and one
card (timestamp 7), undo removes the card, the latest event. -/
theorem claim_C6_witness :
    ∃ t : Nat,
      (∀ e ∈ (addCard (addScore initState Team.home ScoreType.tryScore none false "e1" 5)
          Team.home "p1" CardType.yellow "c1" 7).scoreEvents, e.timestamp ≤ t) ∧
      (∀ c ∈ (addCard (addScore initState Team.home ScoreType.tryScore none false "e1" 5)
          Team.home "p1" CardType.yellow "c1" 7).cards, c.timestamp ≤ t) ∧
      (∀ x ∈ (addCard (addScore initState Team.home ScoreType.tryScore none false "e1" 5)
          Team.home "p1" CardType.yellow "c1" 7).substitutionEvents, x.timestamp ≤ t) ∧
      ((∃ x, (addCard (addScore initState Team.home ScoreType.tryScore none false "e1" 5)
            Team.home "p1" CardType.yellow "c1" 7).substitutionEvents.getLast? = some x ∧
          x.timestamp = t ∧
          undo (addCard (addScore initState Team.home ScoreType.tryScore none false "e1" 5)
              Team.home "p1" CardType.yellow "c1" 7) =
            { addCard (addScore initState Team.home ScoreType.tryScore none false "e1" 5)
                Team.home "p1" CardType.yellow "c1" 7 with
              substitutionEvents :=
                (addCard (addScore initState Team.home ScoreType.tryScore none false "e1" 5)
                  Team.home "p1" CardType.yellow "c1" 7).substitutionEvents.dropLast }) ∨
       ((∀ x ∈ (addCard (addScore initState Team.home ScoreType.tryScore none false "e1" 5)
            Team.home "p1" CardType.yellow "c1" 7).substitutionEvents, x.timestamp < t) ∧
        (∃ e, (addCard (addScore initState Team.home ScoreType.tryScore none false "e1" 5)
            Team.home "p1" CardType.yellow "c1" 7).scoreEvents.getLast? = some e ∧
          e.timestamp = t) ∧
        (undo (addCard (addScore initState Team.home ScoreType.tryScore none false "e1" 5)
            Team.home "p1" CardType.yellow "c1" 7)).scoreEvents =
          (addCard (addScore initState Team.home ScoreType.tryScore none false "e1" 5)
            Team.home "p1" CardType.yellow "c1" 7).scoreEvents.dropLast ∧
        (undo (addCard (addScore initState Team.home ScoreType.tryScore none false "e1" 5)
            Team.home "p1" CardType.yellow "c1" 7)).cards =
          (addCard (addScore initState Team.home ScoreType.tryScore none false "e1" 5)
            Team.home "p1" CardType.yellow "c1" 7).cards ∧
        (undo (addCard (addScore initState Team.home ScoreType.tryScore none false "e1" 5)
            Team.home "p1" CardType.yellow "c1" 7)).substitutionEvents =
          (addCard (addScore initState Team.home ScoreType.tryScore none false "e1" 5)
            Team.home "p1" CardType.yellow "c1" 7).substitutionEvents) ∨
       ((∀ x ∈ (addCard (addScore initState Team.home ScoreType.tryScore none false "e1" 5)
            Team.home "p1" CardType.yellow "c1" 7).substitutionEvents, x.timestamp < t) ∧
        ∃ c, (addCard (addScore initState Team.home ScoreType.tryScore none false "e1" 5)
            Team.home "p1" CardType.yellow "c1" 7).cards.getLast? = some c ∧
          c.timestamp = t ∧
          undo (addCard (addScore initState Team.home ScoreType.tryScore none false "e1" 5)
              Team.home "p1" CardType.yellow "c1" 7) =
            { addCard (addScore initState Team.home ScoreType.tryScore none false "e1" 5)
                Team.home "p1" CardType.yellow "c1" 7 with
              cards :=
                (addCard (addScore initState Team.home ScoreType.tryScore none false "e1" 5)
                  Team.home "p1" CardType.yellow "c1" 7).cards.dropLast })) :=
  (claim_C6_undo_removes_latest
    (addCard (addScore initState Team.home ScoreType.tryScore none false "e1" 5)
      Team.home "p1" CardType.yellow "c1" 7)
    (by decide) (by decide) (by decide) (by decide) (by decide) (by decide)).2
    (Or.inl (by decide))

/-! ## Claim C1 -/

theorem scoreContrib_eq_zero_of_pending (t : Team) {e : ScoreEvent}
    (h : e.pending = true) : scoreContrib t e = 0 := by
  simp [scoreContrib, h]

/-- Filtering out events that are all pending does not change a team sum. -/
theorem teamSum_filter_pending (t : Team) (eventId : String) :
    ∀ {l : List ScoreEvent},
      (∀ e ∈ l, e.id = eventId → e.pending = true) →
      teamSum t (l.filter fun e => e.id ≠ eventId) = teamSum t l := by
  intro l
  induction l with
  | nil => intro _; rfl
  | cons e tl ih =>
    intro h
    by_cases hid : e.id = eventId
    · have hp := h e (by simp) hid
      rw [List.filter_cons_of_neg (by simp [hid]), teamSum_cons,
        ih fun x hx => h x (List.mem_cons_of_mem e hx),
        scoreContrib_eq_zero_of_pending t hp]
      ring
    · rw [List.filter_cons_of_pos (by simp [hid]), teamSum_cons, teamSum_cons,
        ih fun x hx => h x (List.mem_cons_of_mem e hx)]

/-- Marking the (unique) event with the given id as not pending raises a
team sum by exactly that event's contribution-to-be. -/
theorem teamSum_resolve_map (t : Team) (eventId : String) :
    ∀ {l : List ScoreEvent} {ev : ScoreEvent},
      l.Pairwise (fun a b => a.id ≠ b.id) →
      l.find? (fun e => e.id == eventId) = some ev →
      ev.pending = true →
      teamSum t (l.map fun e =>
        if e.id == eventId then { e with pending := false } else e) =
        teamSum t l + (if ev.team = t then ev.points else 0) := by
  intro l
  induction l with
  | nil => intro ev _ hfind; simp at hfind
  | cons e tl ih =>
    intro ev hd hfind hp
    by_cases hid : (e.id == eventId) = true
    · have hev : ev = e := by
        rw [List.find?_cons_of_pos (p := fun x => x.id == eventId) tl hid] at hfind
        exact (Option.some.inj hfind).symm
      subst hev
      have htl :
          (tl.map fun x =>
            if x.id == eventId then { x with pending := false } else x) = tl := by
        refine (List.map_congr_left ?_).trans (List.map_id tl)
        intro x hx
        have hxid : x.id ≠ eventId := by
          have hne := (List.pairwise_cons.1 hd).1 x hx
          simp only [beq_iff_eq] at hid
          rw [← hid]
          exact fun hc => hne hc.symm
        simp [hxid]
      rw [List.map_cons, if_pos hid, htl, teamSum_cons, teamSum_cons,
        scoreContrib_eq_zero_of_pending t hp]
      have hcv : scoreContrib t { ev with pending := false } =
          if ev.team = t then ev.points else 0 := by
        by_cases ht : ev.team = t <;> simp [scoreContrib, ht]
      rw [hcv]
      ring
    · have hfind' : tl.find? (fun x => x.id == eventId) = some ev := by
        rw [List.find?_cons_of_neg (p := fun x => x.id == eventId) tl hid] at hfind
        exact hfind
      rw [List.map_cons, if_neg hid, teamSum_cons, teamSum_cons,
        ih (List.pairwise_cons.1 hd).2 hfind' hp]
      ring

/-- Dropping the last element lowers a team sum by its contribution. -/
theorem teamSum_dropLast (t : Team) {l : List ScoreEvent} {e : ScoreEvent}
    (h : l.getLast? = some e) :
    teamSum t l.dropLast = teamSum t l - scoreContrib t e := by
  obtain ⟨ys, hys⟩ := List.getLast?_eq_some_iff.1 h
  subst hys
  rw [List.dropLast_concat, teamSum_concat]
  ring

/-- A map that does not touch ids, teams, points or pending flags keeps
team sums and id distinctness. -/
theorem scoreInv_preserving_map (s : MatchState)
    (g : ScoreEvent → ScoreEvent)
    (hid : ∀ e, (g e).id = e.id)
    (hcontrib : ∀ t e, scoreContrib t (g e) = scoreContrib t e)
    (ih : ScoreInv s) :
    ScoreInv { s with scoreEvents := s.scoreEvents.map g } := by
  obtain ⟨ihh, iha, ihd⟩ := ih
  refine ⟨?_, ?_, ?_⟩
  · show s.homeScore = teamSum Team.home (s.scoreEvents.map g)
    rw [ihh, teamSum, teamSum, List.map_map]
    congr 1
    exact List.map_congr_left fun e _ => (hcontrib Team.home e).symm
  · show s.awayScore = teamSum Team.away (s.scoreEvents.map g)
    rw [iha, teamSum, teamSum, List.map_map]
    congr 1
    exact List.map_congr_left fun e _ => (hcontrib Team.away e).symm
  · show (s.scoreEvents.map g).Pairwise fun a b => a.id ≠ b.id
    rw [List.pairwise_map]
    exact ihd.imp @fun a b hab => by
      rw [hid a, hid b]
      exact hab

theorem scoreInv_addScore {s : MatchState} (ih : ScoreInv s)
    {team : Team} {ty : ScoreType} {player : Option String} {pending : Bool}
    {id : String} {ts : Nat}
    (hfresh : ∀ e ∈ s.scoreEvents, e.id ≠ id) :
    ScoreInv (addScore s team ty player pending id ts) := by
  obtain ⟨ihh, iha, ihd⟩ := ih
  unfold addScore
  by_cases hrej : (ty == ScoreType.conversion &&
      match lastNonPendingTry s.scoreEvents with
      | none => true
      | some lastTry => lastTry.team != team) = true
  · simp only [hrej, if_true]
    exact ⟨ihh, iha, ihd⟩
  · rw [Bool.not_eq_true] at hrej
    simp only [hrej, Bool.false_eq_true, if_false]
    have hpw : List.Pairwise (fun a b => a.id ≠ b.id) (s.scoreEvents ++
        [({ id := id, timestamp := ts, team := team, type := ty,
            points := pointsFor ty, player := player, half := s.currentHalf,
            minute := s.elapsedSeconds / 60, matchTime := s.elapsedSeconds,
            pending := pending } : ScoreEvent)]) := by
      rw [List.pairwise_append]
      refine ⟨ihd, by simp, ?_⟩
      intro a ha b hb
      simp only [List.mem_singleton] at hb
      subst hb
      exact hfresh a ha
    cases team <;> cases pending <;>
      refine ⟨?_, ?_, hpw⟩ <;>
      simp [teamSum_concat, scoreContrib, ihh, iha]

theorem scoreInv_resolve {s : MatchState} (ih : ScoreInv s)
    {eventId : String} {approved : Bool}
    (hpend : ∀ e ∈ s.scoreEvents, e.id = eventId → e.pending = true) :
    ScoreInv (resolvePendingEvent s eventId approved) := by
  obtain ⟨ihh, iha, ihd⟩ := ih
  unfold resolvePendingEvent
  cases hfind : s.scoreEvents.find? (fun e => e.id == eventId) with
  | none => exact ⟨ihh, iha, ihd⟩
  | some ev =>
    have hev_mem : ev ∈ s.scoreEvents := List.mem_of_find?_eq_some hfind
    have hev_id : ev.id = eventId := by
      have := List.find?_some hfind
      simpa using this
    have hev_pending : ev.pending = true := hpend ev hev_mem hev_id
    cases approved with
    | false =>
      simp only [Bool.false_eq_true, if_false]
      refine ⟨?_, ?_, ihd.sublist (List.filter_sublist _)⟩
      · show s.homeScore =
          teamSum Team.home (s.scoreEvents.filter fun e => e.id ≠ eventId)
        rw [teamSum_filter_pending Team.home eventId hpend]
        exact ihh
      · show s.awayScore =
          teamSum Team.away (s.scoreEvents.filter fun e => e.id ≠ eventId)
        rw [teamSum_filter_pending Team.away eventId hpend]
        exact iha
    | true =>
      simp only [if_true]
      have hmapH := teamSum_resolve_map Team.home eventId ihd hfind hev_pending
      have hmapA := teamSum_resolve_map Team.away eventId ihd hfind hev_pending
      have hpw : (s.scoreEvents.map fun e =>
          if e.id == eventId then { e with pending := false } else e).Pairwise
          fun a b => a.id ≠ b.id := by
        rw [List.pairwise_map]
        refine ihd.imp @fun a b hab => ?_
        by_cases ha : (a.id == eventId) = true <;>
          by_cases hb : (b.id == eventId) = true <;>
          simp [ha, hb, hab]
      cases hteam : ev.team <;>
        refine ⟨?_, ?_, hpw⟩ <;>
        simp only [hmapH, hmapA, hteam, ihh, iha] <;>
        simp

theorem scoreInv_remove {s : MatchState} (ih : ScoreInv s) {eventId : String} :
    ScoreInv (removeScoreEvent s eventId) := by
  obtain ⟨_, _, ihd⟩ := ih
  unfold removeScoreEvent
  refine ⟨?_, ?_, ihd.sublist (List.filter_sublist _)⟩ <;>
    simp [recompute_eq]

theorem scoreInv_update {s : MatchState} (ih : ScoreInv s)
    {eventId : String} {playerId : Option String} :
    ScoreInv (updateScoreEventPlayer s eventId playerId) := by
  unfold updateScoreEventPlayer
  refine scoreInv_preserving_map s _ ?_ ?_ ih
  · intro e
    by_cases h : (e.id == eventId) = true <;> simp [h]
  · intro t e
    by_cases h : (e.id == eventId) = true <;> simp [h, scoreContrib]

theorem scoreInv_undo {s : MatchState} (ih : ScoreInv s) :
    ScoreInv (undo s) := by
  obtain ⟨ihh, iha, ihd⟩ := ih
  unfold undo
  by_cases hA : lastTimeBy Substitution.timestamp s.substitutionEvents ≥
        lastTimeBy ScoreEvent.timestamp s.scoreEvents ∧
      lastTimeBy Substitution.timestamp s.substitutionEvents ≥
        lastTimeBy Card.timestamp s.cards ∧
      s.substitutionEvents ≠ []
  · rw [if_pos hA]
    exact ⟨ihh, iha, ihd⟩
  · rw [if_neg hA]
    by_cases hB : lastTimeBy ScoreEvent.timestamp s.scoreEvents >
          lastTimeBy Card.timestamp s.cards ∧
        lastTimeBy ScoreEvent.timestamp s.scoreEvents >
          lastTimeBy Substitution.timestamp s.substitutionEvents ∧
        s.scoreEvents ≠ []
    · rw [if_pos hB]
      obtain ⟨e, hegl, _⟩ := getLast?_of_ne_nil hB.2.2
      obtain ⟨eid, ets, eteam, ety, epts, epl, eh2, em2, emt2, ep2⟩ := e
      rw [hegl]
      have hdropH := teamSum_dropLast Team.home hegl
      have hdropA := teamSum_dropLast Team.away hegl
      have hpw := ihd.sublist (List.dropLast_sublist s.scoreEvents)
      cases eteam <;> cases ep2 <;>
        refine ⟨?_, ?_, hpw⟩ <;>
        simp_all [scoreContrib]
    · rw [if_neg hB]
      by_cases hC : s.cards ≠ []
      · rw [if_pos hC]
        exact ⟨ihh, iha, ihd⟩
      · rw [if_neg hC]
        exact ⟨ihh, iha, ihd⟩

/-- Every state reachable under the amended discipline satisfies the
strengthened score invariant. -/
theorem reachable_scoreInv {s : MatchState} (h : Reachable s) : ScoreInv s := by
  induction h with
  | init => exact ⟨rfl, rfl, List.Pairwise.nil⟩
  | stepAddScore _ hfresh ih => exact scoreInv_addScore ih hfresh
  | stepResolve _ hpend ih => exact scoreInv_resolve ih hpend
  | stepRemove _ ih => exact scoreInv_remove ih
  | stepUpdate _ ih => exact scoreInv_update ih
  | stepUndo _ ih => exact scoreInv_undo ih

/-- C1 counterexample: approving an event that is already non-pending (a
sequence the claim allows) double-counts its points — homeScore becomes 10
while the ledger sum of non-pending home points is 5. -/
theorem claim_C1_counterexample :
    ReachableAny (resolvePendingEvent
      (addScore initState Team.home ScoreType.tryScore none false "e1" 1)
      "e1" true) ∧
    (resolvePendingEvent
      (addScore initState Team.home ScoreType.tryScore none false "e1" 1)
      "e1" true).homeScore = 10 ∧
    teamSum Team.home (resolvePendingEvent
      (addScore initState Team.home ScoreType.tryScore none false "e1" 1)
      "e1" true).scoreEvents = 5 := by
  refine ⟨ReachableAny.stepResolve (ReachableAny.stepAddScore ReachableAny.init
    (by decide)), by decide, by decide⟩

/-- C1 (amended): for every state reachable from the initial store state
through addScore, resolvePendingEvent, removeScoreEvent,
updateScoreEventPlayer and undo — with fresh event ids, and with
resolvePendingEvent only ever invoked on events that are still pending —
homeScore equals the sum of points of the non-pending home score events and
awayScore the corresponding away sum. -/
theorem claim_C1_score_consistency {s : MatchState} (h : Reachable s) :
    s.homeScore = teamSum Team.home s.scoreEvents ∧
    s.awayScore = teamSum Team.away s.scoreEvents :=
  ⟨(reachable_scoreInv h).1, (reachable_scoreInv h).2.1⟩

/-- C1 witness: the invariant evaluated on the reachable state obtained by
adding a pending home try and then approving it. -/
theorem claim_C1_witness :
    (resolvePendingEvent
      (addScore initState Team.home ScoreType.tryScore none true "e1" 1)
      "e1" true).homeScore =
      teamSum Team.home (resolvePendingEvent
        (addScore initState Team.home ScoreType.tryScore none true "e1" 1)
        "e1" true).scoreEvents ∧
    (resolvePendingEvent
      (addScore initState Team.home ScoreType.tryScore none true "e1" 1)
      "e1" true).awayScore =
      teamSum Team.away (resolvePendingEvent
        (addScore initState Team.home ScoreType.tryScore none true "e1" 1)
        "e1" true).scoreEvents :=
  claim_C1_score_consistency
    (Reachable.stepResolve
      (Reachable.stepAddScore Reachable.init (by decide)) (by decide))

/-! ## Claim C8 -/

theorem any_perm (f : α → Bool) {l1 l2 : List α} (h : List.Perm l1 l2) :
    l1.any f = l2.any f := by
  cases h1 : l1.any f with
  | true =>
    rw [List.any_eq_true] at h1
    obtain ⟨x, hx, hfx⟩ := h1
    exact (List.any_eq_true.2 ⟨x, h.mem_iff.1 hx, hfx⟩).symm
  | false =>
    cases h2 : l2.any f with
    | false => rfl
    | true =>
      rw [List.any_eq_true] at h2
      obtain ⟨x, hx, hfx⟩ := h2
      rw [← h1]
      exact List.any_eq_true.2 ⟨x, h.mem_iff.2 hx, hfx⟩

/-- getSquadStatus only tests membership in the card-derived sets, so any
permutation of the cards list gives the same squad view. -/
theorem getSquadStatus_cards_perm {cards1 cards2 : List Card}
    (h : List.Perm cards1 cards2) (team : Team) (players : List Player)
    (subs : List Substitution) (elapsed : Nat) :
    getSquadStatus team players subs cards1 elapsed =
      getSquadStatus team players subs cards2 elapsed := by
  have h1 : ∀ pid, redCarded cards1 team pid = redCarded cards2 team pid :=
    fun pid => any_perm _ h
  have h2 : ∀ pid, inSinBin cards1 team elapsed pid =
      inSinBin cards2 team elapsed pid :=
    fun pid => any_perm _ h
  simp only [getSquadStatus, h1, h2]

theorem filterMap_eq_self_of {f : α → Option α} :
    ∀ {l : List α}, (∀ x ∈ l, f x = some x) → l.filterMap f = l := by
  intro l
  induction l with
  | nil => intro _; rfl
  | cons x t ih =>
    intro h
    simp [List.filterMap_cons, h x (by simp),
      ih fun y hy => h y (List.mem_cons_of_mem x hy)]

/-- Two lists that are permutations of each other, the first sorted by a
Nat key and the second strictly sorted by the same key, are equal. -/
theorem perm_sorted_strict_eq (f : α → Nat) :
    ∀ {l2 l1 : List α}, List.Perm l1 l2 →
      l1.Pairwise (fun a b => f a ≤ f b) →
      l2.Pairwise (fun a b => f a < f b) → l1 = l2 := by
  intro l2
  induction l2 with
  | nil =>
    intro l1 h _ _
    exact h.eq_nil
  | cons b t ih =>
    intro l1 hperm hp1 hp2
    cases l1 with
    | nil => exact absurd hperm.symm.eq_nil (by simp)
    | cons a s =>
      have hmem_a : a ∈ b :: t := hperm.mem_iff.1 (by simp)
      have hmem_b : b ∈ a :: s := hperm.symm.mem_iff.1 (by simp)
      have hab : a = b := by
        rcases List.mem_cons.1 hmem_a with h | h
        · exact h
        · have hba := (List.pairwise_cons.1 hp2).1 a h
          rcases List.mem_cons.1 hmem_b with h2 | h2
          · exact h2.symm
          · have := (List.pairwise_cons.1 hp1).1 b h2
            omega
      subst hab
      have htail : List.Perm s t := hperm.cons_inv
      rw [ih htail (List.pairwise_cons.1 hp1).2 (List.pairwise_cons.1 hp2).2]

theorem logToSub_scoreToLog (e : ScoreEvent) : logToSub (scoreToLog e) = none := rfl

theorem logToSub_cardToLog (c : Card) : logToSub (cardToLog c) = none := rfl

theorem logToSub_sysToLog (e : SystemEvent) : logToSub (sysToLog e) = none := by
  obtain ⟨eid, ets, ety, eh, emt⟩ := e
  cases ety <;> rfl

theorem logToSub_subToLog (x : Substitution)
    (hmin : x.minute = x.matchTime / 60) : logToSub (subToLog x) = some x := by
  obtain ⟨xid, xts, xteam, xoff, xon, xh, xm, xmt⟩ := x
  simp only at hmin
  subst hmin
  rfl

theorem logToCard_scoreToLog (e : ScoreEvent) : logToCard (scoreToLog e) = none := rfl

theorem logToCard_subToLog (x : Substitution) : logToCard (subToLog x) = none := rfl

theorem logToCard_sysToLog (e : SystemEvent) : logToCard (sysToLog e) = none := by
  obtain ⟨eid, ets, ety, eh, emt⟩ := e
  cases ety <;> rfl

theorem logToCard_cardToLog (c : Card)
    (hmin : c.minute = c.matchTime / 60) : logToCard (cardToLog c) = some c := by
  obtain ⟨cid, cts, cteam, cpl, cty, ch, cm, cmt, crt, cret⟩ := c
  simp only at hmin
  subst hmin
  rfl

theorem timestamp_of_logToSub {ev : LogEvent} {b : Substitution}
    (h : logToSub ev = some b) : b.timestamp = ev.timestamp := by
  unfold logToSub at h
  split at h
  · split at h
    · injection h with h
      subst h
      rfl
    · exact Option.noConfusion h
  · exact Option.noConfusion h

theorem logScoreContrib_scoreToLog (t : Team) (e : ScoreEvent) :
    logScoreContrib t (scoreToLog e) = scoreContrib t e := by
  by_cases h1 : e.team = t <;> by_cases h2 : e.pending = true <;>
    simp [logScoreContrib, scoreToLog, LogEvent.blank, scoreContrib, h1, h2]

theorem logScoreContrib_cardToLog (t : Team) (c : Card) :
    logScoreContrib t (cardToLog c) = 0 := rfl

theorem logScoreContrib_subToLog (t : Team) (x : Substitution) :
    logScoreContrib t (subToLog x) = 0 := rfl

theorem logScoreContrib_sysToLog (t : Team) (e : SystemEvent) :
    logScoreContrib t (sysToLog e) = 0 := by
  obtain ⟨eid, ets, ety, eh, emt⟩ := e
  cases ety <;> rfl

theorem filterMap_none {f : α → Option β} :
    ∀ {l : List α}, (∀ x ∈ l, f x = none) → l.filterMap f = [] := by
  intro l
  induction l with
  | nil => intro _; rfl
  | cons x t ih =>
    intro h
    simp [List.filterMap_cons, h x (by simp),
      ih fun y hy => h y (List.mem_cons_of_mem x hy)]

theorem sum_map_zero_int {β : Type} (l : List β) :
    (l.map fun _ => (0 : Int)).sum = 0 := by
  induction l <;> simp_all

/-- C8 counterexample: a state holding a card-return event produces a
persisted log with no entry for it — MatchSnapshot and LogEvent have no
card-return shape, so that event kind is not persisted. -/
theorem claim_C8_counterexample :
    (returnFromSinBin (addCard initState Team.home "p1" CardType.yellow "c1" 5)
      "c1" "r1" 6).cardReturnEvents.length = 1 ∧
    ∀ ev ∈ buildLogFromSnapshot (stateToMatchSnapshot
      (returnFromSinBin (addCard initState Team.home "p1" CardType.yellow "c1" 5)
        "c1" "r1" 6)), ev.id ≠ "r1" := by
  exact ⟨rfl, by decide⟩

/-- C8 (amended): the persisted log holds exactly one entry per score,
card, substitution and system event (card-return events are not persisted;
the returned flag on the card entry carries early returns), sorted by
creation timestamp; folding the log's non-pending score entries reproduces
homeScore and awayScore, and squad status computed from the cards and
substitutions read back out of the log is identical to the in-memory one.
The hypotheses record properties every snapshot taken from an API-built
session has: strictly increasing substitution timestamps, minute fields
derived from matchTime, and the score-consistency invariant. -/
theorem claim_C8_round_trip (snap : MatchSnapshot)
    (hsubSorted : snap.substitutionEvents.Pairwise
      fun a b => a.timestamp < b.timestamp)
    (hsubMin : ∀ x ∈ snap.substitutionEvents, x.minute = x.matchTime / 60)
    (hcardMin : ∀ c ∈ snap.cards, c.minute = c.matchTime / 60)
    (hinvH : snap.homeScore = teamSum Team.home snap.scoreEvents)
    (hinvA : snap.awayScore = teamSum Team.away snap.scoreEvents) :
    List.Perm (buildLogFromSnapshot snap)
      (snap.scoreEvents.map scoreToLog ++ snap.cards.map cardToLog ++
        snap.substitutionEvents.map subToLog ++ snap.systemEvents.map sysToLog) ∧
    (buildLogFromSnapshot snap).Pairwise
      (fun a b => a.timestamp ≤ b.timestamp) ∧
    logTeamScore Team.home (buildLogFromSnapshot snap) = snap.homeScore ∧
    logTeamScore Team.away (buildLogFromSnapshot snap) = snap.awayScore ∧
    subsOfLog (buildLogFromSnapshot snap) = snap.substitutionEvents ∧
    List.Perm (cardsOfLog (buildLogFromSnapshot snap)) snap.cards ∧
    (∀ team players elapsed,
      getSquadStatus team players (subsOfLog (buildLogFromSnapshot snap))
        (cardsOfLog (buildLogFromSnapshot snap)) elapsed =
        getSquadStatus team players snap.substitutionEvents snap.cards elapsed) := by
  have hperm : List.Perm (buildLogFromSnapshot snap)
      (snap.scoreEvents.map scoreToLog ++ snap.cards.map cardToLog ++
        snap.substitutionEvents.map subToLog ++ snap.systemEvents.map sysToLog) :=
    sortBy_perm _ _
  have hsorted : (buildLogFromSnapshot snap).Pairwise
      fun a b => a.timestamp ≤ b.timestamp := by
    unfold buildLogFromSnapshot
    have h := sortBy_pairwise
      (fun a b : LogEvent => decide (a.timestamp ≤ b.timestamp))
      (by intro x y z hxy hyz; simp only [decide_eq_true_eq] at *; omega)
      (by intro x y hxy; simp only [decide_eq_false_iff_not, decide_eq_true_eq] at *; omega)
      (snap.scoreEvents.map scoreToLog ++ snap.cards.map cardToLog ++
        snap.substitutionEvents.map subToLog ++ snap.systemEvents.map sysToLog)
    exact h.imp fun hab => by simpa using hab
  have hscore : ∀ t : Team,
      logTeamScore t (buildLogFromSnapshot snap) = teamSum t snap.scoreEvents := by
    intro t
    unfold logTeamScore
    rw [(hperm.map (logScoreContrib t)).sum_eq]
    simp only [List.map_append, List.sum_append, List.map_map, Function.comp_def]
    have e1 : (snap.scoreEvents.map fun e => logScoreContrib t (scoreToLog e)).sum =
        teamSum t snap.scoreEvents := by
      unfold teamSum
      congr 1
      exact List.map_congr_left fun e _ => logScoreContrib_scoreToLog t e
    have e2 : (snap.cards.map fun c => logScoreContrib t (cardToLog c)).sum = 0 := by
      rw [List.map_congr_left fun c _ => logScoreContrib_cardToLog t c]
      exact sum_map_zero_int snap.cards
    have e3 : (snap.substitutionEvents.map fun x =>
        logScoreContrib t (subToLog x)).sum = 0 := by
      rw [List.map_congr_left fun x _ => logScoreContrib_subToLog t x]
      exact sum_map_zero_int snap.substitutionEvents
    have e4 : (snap.systemEvents.map fun x => logScoreContrib t (sysToLog x)).sum = 0 := by
      rw [List.map_congr_left fun x _ => logScoreContrib_sysToLog t x]
      exact sum_map_zero_int snap.systemEvents
    rw [e1, e2, e3, e4]
    ring
  have hsubs : subsOfLog (buildLogFromSnapshot snap) = snap.substitutionEvents := by
    have hperm0 : List.Perm (subsOfLog (buildLogFromSnapshot snap))
        snap.substitutionEvents := by
      unfold subsOfLog
      refine (hperm.filterMap logToSub).trans ?_
      rw [List.filterMap_append, List.filterMap_append, List.filterMap_append,
        List.filterMap_map, List.filterMap_map, List.filterMap_map,
        List.filterMap_map]
      simp only [Function.comp_def]
      rw [filterMap_none fun e _ => logToSub_scoreToLog e,
        filterMap_none fun c _ => logToSub_cardToLog c,
        filterMap_none fun e _ => logToSub_sysToLog e,
        filterMap_eq_self_of fun x hx => logToSub_subToLog x (hsubMin x hx)]
      simp
    have hsorted_f : (subsOfLog (buildLogFromSnapshot snap)).Pairwise
        fun a b => a.timestamp ≤ b.timestamp := by
      unfold subsOfLog
      refine List.Pairwise.filterMap logToSub ?_ hsorted
      intro a a2 hle b hb b2 hb2
      have hb1 := timestamp_of_logToSub (Option.mem_def.1 hb)
      have hb3 := timestamp_of_logToSub (Option.mem_def.1 hb2)
      omega
    exact perm_sorted_strict_eq Substitution.timestamp hperm0 hsorted_f hsubSorted
  have hcards : List.Perm (cardsOfLog (buildLogFromSnapshot snap)) snap.cards := by
    unfold cardsOfLog
    refine (hperm.filterMap logToCard).trans ?_
    rw [List.filterMap_append, List.filterMap_append, List.filterMap_append,
      List.filterMap_map, List.filterMap_map, List.filterMap_map,
      List.filterMap_map]
    simp only [Function.comp_def]
    rw [filterMap_none fun e _ => logToCard_scoreToLog e,
      filterMap_none fun x _ => logToCard_subToLog x,
      filterMap_none fun e _ => logToCard_sysToLog e,
      filterMap_eq_self_of fun c hc => logToCard_cardToLog c (hcardMin c hc)]
    simp
  refine ⟨hperm, hsorted, ?_, ?_, hsubs, hcards, ?_⟩
  · rw [hscore Team.home, hinvH]
  · rw [hscore Team.away, hinvA]
  · intro team players elapsed
    rw [hsubs]
    exact getSquadStatus_cards_perm hcards team players snap.substitutionEvents elapsed

/-- C8 witness: the round-trip theorem evaluated on the snapshot of a small
session holding one try, one red card and one substitution. -/
theorem claim_C8_witness :
    logTeamScore Team.home (buildLogFromSnapshot (stateToMatchSnapshot
      (addSubstitution (addCard (addScore initState Team.home ScoreType.tryScore
          none false "e1" 1) Team.away "p9" CardType.red "c1" 2)
        Team.home "a1" "b1" none "s1" 3))) =
      (stateToMatchSnapshot
        (addSubstitution (addCard (addScore initState Team.home ScoreType.tryScore
            none false "e1" 1) Team.away "p9" CardType.red "c1" 2)
          Team.home "a1" "b1" none "s1" 3)).homeScore ∧
    subsOfLog (buildLogFromSnapshot (stateToMatchSnapshot
      (addSubstitution (addCard (addScore initState Team.home ScoreType.tryScore
          none false "e1" 1) Team.away "p9" CardType.red "c1" 2)
        Team.home "a1" "b1" none "s1" 3))) =
      (stateToMatchSnapshot
        (addSubstitution (addCard (addScore initState Team.home ScoreType.tryScore
            none false "e1" 1) Team.away "p9" CardType.red "c1" 2)
          Team.home "a1" "b1" none "s1" 3)).substitutionEvents := by
  have h := claim_C8_round_trip
    (stateToMatchSnapshot
      (addSubstitution (addCard (addScore initState Team.home ScoreType.tryScore
          none false "e1" 1) Team.away "p9" CardType.red "c1" 2)
        Team.home "a1" "b1" none "s1" 3))
    (by decide) (by decide) (by decide) (by decide) (by decide)
  exact ⟨h.2.2.1, h.2.2.2.2.1⟩

/-- C10 witness: the squad well-formedness theorem evaluated on a concrete
two-player roster. -/
theorem claim_C10_witness :
    (∀ p, p ∈ (getSquadStatus Team.home
        [{ id := "a", number := 2, name := "A", position := "Hooker",
           isStarter := true, team := Team.home },
         { id := "b", number := 1, name := "B", position := "Prop",
           isStarter := false, team := Team.home }] [] [] 0).onPitch →
      p ∉ (getSquadStatus Team.home
        [{ id := "a", number := 2, name := "A", position := "Hooker",
           isStarter := true, team := Team.home },
         { id := "b", number := 1, name := "B", position := "Prop",
           isStarter := false, team := Team.home }] [] [] 0).onBench) ∧
    (getSquadStatus Team.home
        [{ id := "a", number := 2, name := "A", position := "Hooker",
           isStarter := true, team := Team.home },
         { id := "b", number := 1, name := "B", position := "Prop",
           isStarter := false, team := Team.home }] [] [] 0).onPitch.Pairwise
      (fun a b => a.number ≤ b.number) ∧
    (getSquadStatus Team.home
        [{ id := "a", number := 2, name := "A", position := "Hooker",
           isStarter := true, team := Team.home },
         { id := "b", number := 1, name := "B", position := "Prop",
           isStarter := false, team := Team.home }] [] [] 0).onBench.Pairwise
      (fun a b => a.number ≤ b.number) ∧
    (∀ p ∈ (getSquadStatus Team.home
        [{ id := "a", number := 2, name := "A", position := "Hooker",
           isStarter := true, team := Team.home },
         { id := "b", number := 1, name := "B", position := "Prop",
           isStarter := false, team := Team.home }] [] [] 0).onPitch,
      p.team = Team.home) ∧
    (∀ p ∈ (getSquadStatus Team.home
        [{ id := "a", number := 2, name := "A", position := "Hooker",
           isStarter := true, team := Team.home },
         { id := "b", number := 1, name := "B", position := "Prop",
           isStarter := false, team := Team.home }] [] [] 0).onBench,
      p.team = Team.home) :=
  claim_C10_squad_lists_wellformed Team.home
    [{ id := "a", number := 2, name := "A", position := "Hooker",
       isStarter := true, team := Team.home },
     { id := "b", number := 1, name := "B", position := "Prop",
       isStarter := false, team := Team.home }] [] [] 0

end Rugby
